import Mathlib

/-!
Verification of the signing module of the education-cryptomoji repository
(src/code/part-one/signing.js).

The module under verification is a thin wrapper around two external
collaborators: Node's crypto module (SHA-256, random bytes) and the
secp256k1 library (scalar validation, public key derivation, ECDSA
signing and verification).  The wrapper code itself — hex conversions via
Buffer, the digest('hex')-then-redecode dance, and argument plumbing — is
embedded directly from the source.  The collaborators' code is not part of
the repository, so their behaviour is modelled from the specification:
SHA-256 per FIPS 180-4, and secp256k1/ECDSA per SEC 1/SEC 2 with the
standard secp256k1 domain parameters.  Each modelled definition carries a
doc comment saying so.

Byte sequences are modelled as lists of naturals below 256 (the contents
of a Node Buffer), and a message is modelled as the list of bytes Node
hashes for it (the UTF-8 encoding of the JS string).
-/

namespace Cryptomoji

/-! ### Bytes and big-endian numeric views -/

/-- A list of naturals is a byte sequence when every entry is below 256.
This is the invariant every Node Buffer satisfies. -/
def IsBytes (bs : List Nat) : Prop := ∀ b ∈ bs, b < 256

instance (bs : List Nat) : Decidable (IsBytes bs) := by
  unfold IsBytes; infer_instance

/-- The big-endian numeric value of a byte sequence. -/
def bytesToNatBE (bs : List Nat) : Nat := bs.foldl (fun acc b => acc * 256 + b) 0

/-- The `k`-byte big-endian encoding of `v % 256^k`. -/
def natToBytesBE : Nat → Nat → List Nat
  | 0, _ => []
  | k + 1, v => natToBytesBE k (v / 256) ++ [v % 256]

/-! ### Hex encoding and decoding

Node's Buffer semantics, which the source leans on:
Buffer.from(s, 'hex') consumes the string two characters at a time and
stops silently at the first pair that is not two hex digits (so a
malformed hex string yields a truncated, possibly empty, buffer rather
than an exception), and buf.toString('hex') emits lowercase hex. -/

/-- The value of a hex digit character, or none.  Node accepts both
lowercase and uppercase digits. -/
def hexDigitVal (c : Char) : Option Nat :=
  if 48 ≤ c.toNat ∧ c.toNat ≤ 57 then some (c.toNat - 48)
  else if 97 ≤ c.toNat ∧ c.toNat ≤ 102 then some (c.toNat - 87)
  else if 65 ≤ c.toNat ∧ c.toNat ≤ 70 then some (c.toNat - 55)
  else none

/-- Decode a character list as hex bytes, two characters per byte,
stopping at the first invalid pair — Buffer.from(s, 'hex'). -/
def hexDecodeChars : List Char → List Nat
  | c1 :: c2 :: rest =>
    match hexDigitVal c1, hexDigitVal c2 with
    | some hi, some lo => (16 * hi + lo) :: hexDecodeChars rest
    | _, _ => []
  | _ => []

/-- Buffer.from(s, 'hex'): the bytes of the longest valid even-length hex
prefix of `s`. -/
def hexDecode (s : String) : List Nat := hexDecodeChars s.data

/-- The lowercase hex digit character for `d < 16`. -/
def hexDigitChar (d : Nat) : Char :=
  if d < 10 then Char.ofNat (48 + d) else Char.ofNat (87 + d)

/-- Lowercase hex character pair list for a byte sequence. -/
def hexEncodeBytes : List Nat → List Char
  | [] => []
  | b :: rest => hexDigitChar (b / 16 % 16) :: hexDigitChar (b % 16) :: hexEncodeBytes rest

/-- buf.toString('hex'): the lowercase hex string of a byte sequence. -/
def hexEncode (bs : List Nat) : String := String.mk (hexEncodeBytes bs)

/-! ### SHA-256

Modelled from the spec: the module's hash provider is Node's
createHash('sha256'), external to the repository; this is SHA-256 as
standardised in FIPS 180-4, over byte sequences. -/

/-- Truncation to a 32-bit word. -/
def w32 (n : Nat) : Nat := n % 4294967296

/-- Right rotation of a 32-bit word by `k` bits. -/
def rotr32 (k n : Nat) : Nat := w32 (n / 2 ^ k + n * 2 ^ (32 - k))

/-- The SHA-256 round constants. -/
def shaK : List Nat :=
  [1116352408, 1899447441, 3049323471, 3921009573, 961987163, 1508970993,
   2453635748, 2870763221, 3624381080, 310598401, 607225278, 1426881987,
   1925078388, 2162078206, 2614888103, 3248222580, 3835390401, 4022224774,
   264347078, 604807628, 770255983, 1249150122, 1555081692, 1996064986,
   2554220882, 2821834349, 2952996808, 3210313671, 3336571891, 3584528711,
   113926993, 338241895, 666307205, 773529912, 1294757372, 1396182291,
   1695183700, 1986661051, 2177026350, 2456956037, 2730485921, 2820302411,
   3259730800, 3345764771, 3516065817, 3600352804, 4094571909, 275423344,
   430227734, 506948616, 659060556, 883997877, 958139571, 1322822218,
   1537002063, 1747873779, 1955562222, 2024104815, 2227730452, 2361852424,
   2428436474, 2756734187, 3204031479, 3329325298]

/-- The SHA-256 working state: eight 32-bit words. -/
structure Sha8 where
  a : Nat
  b : Nat
  c : Nat
  d : Nat
  e : Nat
  f : Nat
  g : Nat
  h : Nat

/-- The SHA-256 initial hash value. -/
def shaH0 : Sha8 :=
  ⟨1779033703, 3144134277, 1013904242, 2773480762,
   1359893119, 2600822924, 528734635, 1541459225⟩

/-- The small sigma-0 message schedule function. -/
def ssig0 (x : Nat) : Nat := (rotr32 7 x) ^^^ (rotr32 18 x) ^^^ (x / 2 ^ 3)

/-- The small sigma-1 message schedule function. -/
def ssig1 (x : Nat) : Nat := (rotr32 17 x) ^^^ (rotr32 19 x) ^^^ (x / 2 ^ 10)

/-- The big Sigma-0 compression function. -/
def bsig0 (x : Nat) : Nat := (rotr32 2 x) ^^^ (rotr32 13 x) ^^^ (rotr32 22 x)

/-- The big Sigma-1 compression function. -/
def bsig1 (x : Nat) : Nat := (rotr32 6 x) ^^^ (rotr32 11 x) ^^^ (rotr32 25 x)

/-- The SHA-256 choice function. -/
def shaCh (x y z : Nat) : Nat := (x &&& y) ^^^ ((2 ^ 32 - 1 - w32 x) &&& z)

/-- The SHA-256 majority function. -/
def shaMaj (x y z : Nat) : Nat := (x &&& y) ^^^ (x &&& z) ^^^ (y &&& z)

/-- Group a byte sequence into big-endian 32-bit words, four bytes each. -/
def bytesToWordsBE : List Nat → List Nat
  | b0 :: b1 :: b2 :: b3 :: rest =>
    (((b0 * 256 + b1) * 256 + b2) * 256 + b3) :: bytesToWordsBE rest
  | _ => []

/-- Extend a 16-word block to the full 64-word message schedule,
appending `fuel` further words. -/
def shaExtend : Nat → List Nat → List Nat
  | 0, ws => ws
  | fuel + 1, ws =>
    let n := ws.length
    let x := w32 (ws.getD (n - 16) 0 + ssig0 (ws.getD (n - 15) 0) +
                  ws.getD (n - 7) 0 + ssig1 (ws.getD (n - 2) 0))
    shaExtend fuel (ws ++ [x])

/-- One SHA-256 compression round; `kw` is the round constant plus the
schedule word, already reduced mod 2^32. -/
def shaRound (kw : Nat) (s : Sha8) : Sha8 :=
  let t1 := w32 (s.h + bsig1 s.e + shaCh s.e s.f s.g + kw)
  let t2 := w32 (bsig0 s.a + shaMaj s.a s.b s.c)
  ⟨w32 (t1 + t2), s.a, s.b, s.c, w32 (s.d + t1), s.e, s.f, s.g⟩

/-- Run the 64 compression rounds over the combined constant/schedule list. -/
def shaRounds : List Nat → Sha8 → Sha8
  | [], s => s
  | kw :: rest, s => shaRounds rest (shaRound kw s)

/-- Compress one 64-byte block into the running hash value. -/
def shaBlock (s : Sha8) (block : List Nat) : Sha8 :=
  let ws := shaExtend 48 (bytesToWordsBE block)
  let t := shaRounds (List.zipWith (fun k w => w32 (k + w)) shaK ws) s
  ⟨w32 (s.a + t.a), w32 (s.b + t.b), w32 (s.c + t.c), w32 (s.d + t.d),
   w32 (s.e + t.e), w32 (s.f + t.f), w32 (s.g + t.g), w32 (s.h + t.h)⟩

/-- Fold the compression function over consecutive 64-byte blocks;
`fuel` bounds the number of blocks. -/
def shaBlocks : Nat → Sha8 → List Nat → Sha8
  | 0, s, _ => s
  | _ + 1, s, [] => s
  | fuel + 1, s, bs => shaBlocks fuel (shaBlock s (bs.take 64)) (bs.drop 64)

/-- The FIPS 180-4 padding: a 0x80 byte, zeros, and the 64-bit big-endian
bit length, bringing the length to a multiple of 64. -/
def shaPad (m : List Nat) : List Nat :=
  m ++ 128 :: List.replicate ((119 - m.length % 64) % 64) 0 ++
    natToBytesBE 8 (8 * m.length)

/-- SHA-256 of a byte sequence, as its 32 digest bytes.  Models
createHash('sha256').update(message).digest(). -/
def sha256 (m : List Nat) : List Nat :=
  let s := shaBlocks (shaPad m).length shaH0 (shaPad m)
  natToBytesBE 4 s.a ++ natToBytesBE 4 s.b ++ natToBytesBE 4 s.c ++
  natToBytesBE 4 s.d ++ natToBytesBE 4 s.e ++ natToBytesBE 4 s.f ++
  natToBytesBE 4 s.g ++ natToBytesBE 4 s.h

/-! ### The secp256k1 primitive layer

Modelled from the spec: the module's curve provider is the secp256k1
library, external to the repository.  The spec names the curve
(secp256k1), the scalar validity predicate (nonzero and below the group
order), the compressed point encoding (33 bytes with an 02/03 prefix),
and ECDSA (r, s) signatures over a 32-byte digest; the domain parameters
below are the standard secp256k1 parameters of SEC 2.  The nonce
derivation is left open by the spec ("deterministic per RFC6979 vs.
random ... delegated to the external primitive provider"); the model
uses a deterministic hash-derived nonce, matching the library's
deterministic signing. -/

/-- The secp256k1 base field modulus. -/
def secpP : Nat :=
  115792089237316195423570985008687907853269984665640564039457584007908834671663

/-- The secp256k1 group order. -/
def secpN : Nat :=
  115792089237316195423570985008687907852837564279074904382605163141518161494337

/-- The x-coordinate of the secp256k1 base point. -/
def secpGx : Nat :=
  55066263022277343669578718895168534326250603453777594175500187360389116729240

/-- The y-coordinate of the secp256k1 base point. -/
def secpGy : Nat :=
  32670510020758816978083085130507043184471273380659243275938904335757337482424

/-- Binary modular exponentiation, structurally recursive on a fuel
argument so that the kernel can evaluate it. -/
def powmodAux : Nat → Nat → Nat → Nat → Nat → Nat
  | 0, _, _, _, acc => acc
  | fuel + 1, b, e, m, acc =>
    if e = 0 then acc
    else powmodAux fuel (b * b % m) (e / 2) m (if e % 2 = 1 then acc * b % m else acc)

/-- b ^ e mod m, for exponents below 2^300. -/
def powmod (b e m : Nat) : Nat := powmodAux 300 (b % m) e m (1 % m)

/-- The inverse mod the field modulus, by Fermat's little theorem. -/
def invModP (a : Nat) : Nat := powmod a (secpP - 2) secpP

/-- The inverse mod the group order, by Fermat's little theorem. -/
def invModN (a : Nat) : Nat := powmod a (secpN - 2) secpN

/-- A point of the curve in affine coordinates: none is the point at
infinity, some (x, y) an affine point with coordinates below the field
modulus. -/
abbrev CPoint : Type := Option (Nat × Nat)

/-- The secp256k1 base point. -/
def secpG : CPoint := some (secpGx, secpGy)

/-- The secant-and-tangent sum of two curve points, with all coordinate
arithmetic mod the field modulus. -/
def pAdd : CPoint → CPoint → CPoint
  | none, q => q
  | p, none => p
  | some (x1, y1), some (x2, y2) =>
    if x1 = x2 then
      if (y1 + y2) % secpP = 0 then none
      else
        let l := 3 * x1 * x1 % secpP * invModP (2 * y1 % secpP) % secpP
        let x3 := (l * l + (secpP - x1) + (secpP - x2)) % secpP
        some (x3, (l * ((x1 + (secpP - x3)) % secpP) + (secpP - y1)) % secpP)
    else
      let l := (y1 + (secpP - y2)) % secpP * invModP ((x1 + (secpP - x2)) % secpP) % secpP
      let x3 := (l * l + (secpP - x1) + (secpP - x2)) % secpP
      some (x3, (l * ((x1 + (secpP - x3)) % secpP) + (secpP - y1)) % secpP)

/-- Binary double-and-add scalar multiplication, structurally recursive
on a fuel argument. -/
def scmulAux : Nat → Nat → CPoint → CPoint → CPoint
  | 0, _, _, acc => acc
  | fuel + 1, k, base, acc =>
    if k = 0 then acc
    else scmulAux fuel (k / 2) (pAdd base base) (if k % 2 = 1 then pAdd acc base else acc)

/-- k times a curve point, for scalars below 2^300. -/
def scmul (k : Nat) (p : CPoint) : CPoint := scmulAux 300 k p none

/-- The Weierstrass form of secp256k1 over its base field, for the
correctness arguments: y^2 = x^3 + 7. -/
def secpW : WeierstrassCurve.Affine (ZMod secpP) :=
  { a₁ := 0, a₂ := 0, a₃ := 0, a₄ := 0, a₆ := 7 }

/-- A computational point represents a nonsingular rational point of the
mathematical curve: infinity matches zero, and an affine pair matches a
point with the same coordinates, reduced below the field modulus. -/
def ReprPt (c : CPoint) (P : secpW.Point) : Prop :=
  match c, P with
  | none, .zero => True
  | some (x, y), @WeierstrassCurve.Affine.Point.some _ _ _ x1 y1 _ =>
    x < secpP ∧ y < secpP ∧ (x : ZMod secpP) = x1 ∧ (y : ZMod secpP) = y1
  | _, _ => False

/-- The error kinds of the primitive layer: InvalidEncoding for byte
sequences of the wrong shape, InvalidKey for out-of-range key material. -/
inductive SigErr where
  | InvalidEncoding
  | InvalidKey
deriving DecidableEq

/-- secp256k1.privateKeyVerify: the scalar validity check — exactly 32
bytes whose big-endian value is nonzero and below the group order. -/
def privateKeyVerify (privKey : List Nat) : Bool :=
  decide (privKey.length = 32) &&
  decide (0 < bytesToNatBE privKey) && decide (bytesToNatBE privKey < secpN)

/-- The 33-byte compressed encoding of an affine point: an 02/03 parity
prefix followed by the 32-byte big-endian x-coordinate. -/
def compressPoint (x y : Nat) : List Nat :=
  (if y % 2 = 0 then 2 else 3) :: natToBytesBE 32 x

/-- secp256k1.publicKeyCreate: reject byte sequences that are not 32
bytes (InvalidEncoding) or not a valid scalar (InvalidKey), and return
the compressed point of the scalar multiple of the base point. -/
def publicKeyCreate (privKey : List Nat) : Except SigErr (List Nat) :=
  if privKey.length ≠ 32 then .error .InvalidEncoding
  else if privateKeyVerify privKey = false then .error .InvalidKey
  else
    match scmul (bytesToNatBE privKey) secpG with
    | none => .error .InvalidKey
    | some (x, y) => .ok (compressPoint x y)

/-- The deterministic ECDSA nonce of the model: derived by hashing the
private key bytes with the digest, then mapped into the nonzero scalars.
The spec leaves the library's derivation open while fixing that it is
deterministic; this is one concrete deterministic choice. -/
def ecdsaNonce (privKey digest : List Nat) : Nat :=
  1 + bytesToNatBE (sha256 (privKey ++ digest)) % (secpN - 1)

/-- The r component of an ECDSA signature: the x-coordinate of the nonce
multiple of the base point, mod the group order. -/
def sigR (rx : Nat) : Nat := rx % secpN

/-- The s component of an ECDSA signature: (z + r d) / k mod the group
order. -/
def sigS (k z r d : Nat) : Nat := invModN k * ((z + r * d) % secpN) % secpN

/-- secp256k1.sign: the ECDSA signature (r, s) of a 32-byte digest under
a private key, as 64 bytes.  The degenerate cases r = 0 and s = 0, which
the library escapes by redrawing its nonce, are reported as errors. -/
def ecdsaSign (digest privKey : List Nat) : Except SigErr (List Nat) :=
  if privKey.length ≠ 32 then .error .InvalidEncoding
  else if privateKeyVerify privKey = false then .error .InvalidKey
  else
    match scmul (ecdsaNonce privKey digest) secpG with
    | none => .error .InvalidKey
    | some rp =>
      if sigR rp.1 = 0 ∨
         sigS (ecdsaNonce privKey digest) (bytesToNatBE digest % secpN)
           (sigR rp.1) (bytesToNatBE privKey) = 0 then .error .InvalidKey
      else .ok (natToBytesBE 32 (sigR rp.1) ++
        natToBytesBE 32 (sigS (ecdsaNonce privKey digest)
          (bytesToNatBE digest % secpN) (sigR rp.1) (bytesToNatBE privKey)))

/-- Parse a 33-byte compressed public key: an 02/03 prefix, an in-range
x-coordinate, and a y-coordinate recovered by a square root mod the
field modulus with the parity the prefix selects; none when the bytes
name no curve point. -/
def decompressPoint (pub : List Nat) : Option (Nat × Nat) :=
  match pub with
  | pfx :: xs =>
    if (pfx = 2 ∨ pfx = 3) ∧ xs.length = 32 then
      let x := bytesToNatBE xs
      if x < secpP then
        let c := (powmod x 3 secpP + 7) % secpP
        let y0 := powmod c ((secpP + 1) / 4) secpP
        if y0 * y0 % secpP = c then
          some (x, if y0 % 2 = pfx % 2 then y0 else (secpP - y0) % secpP)
        else none
      else none
    else none
  | [] => none

/-- The point combination of the core ECDSA test, for already computed
verification scalars u1 = z/s and u2 = r/s: the sum u1 G + u2 Q. -/
def uSum (u1 u2 : Nat) (q : Nat × Nat) : CPoint :=
  pAdd (scmul u1 secpG) (scmul u2 (some q))

/-- Acceptance of the core ECDSA test over computed verification
scalars: the sum point is affine and its x-coordinate reproduces r mod
the group order. -/
def uAccept (u1 u2 r : Nat) (q : Nat × Nat) : Bool :=
  match uSum u1 u2 q with
  | none => false
  | some c => decide (c.1 % secpN = r)

/-- Acceptance as a function of the candidate private scalar whose
public point is checked: none when the scalar has no affine point. -/
def uAcceptKey (u1 u2 r d : Nat) : Bool :=
  match scmul d secpG with
  | none => false
  | some q => uAccept u1 u2 r q

/-- A fingerprint of the sum point for the candidate scalar d: whether
its x-coordinate is r itself (rather than r plus the group order), and
the parity of its y-coordinate.  Accepted scalars are determined by this
fingerprint, which bounds their number by four. -/
def uTag (u1 u2 r d : Nat) : Bool × Bool :=
  match scmul d secpG with
  | none => (false, false)
  | some q =>
    match uSum u1 u2 q with
    | none => (false, false)
    | some c => (decide (c.1 = r), decide (c.2 % 2 = 0))

/-- The core ECDSA test for a parsed public point and in-range r and s:
whether the x-coordinate of (z/s) G + (r/s) Q reproduces r mod the group
order. -/
def ecdsaCheck (z r s : Nat) (q : Nat × Nat) : Bool :=
  uAccept (z * invModN s % secpN) (r * invModN s % secpN) r q

/-- The boolean heart of ECDSA verification over well-shaped inputs:
parse the public key, range-check r and s, and run the core test.
A failure of any step is the normal false result, never an error. -/
def ecdsaVerifyBool (digest sig pub : List Nat) : Bool :=
  match decompressPoint pub with
  | none => false
  | some q =>
    if 0 < bytesToNatBE (sig.take 32) ∧ bytesToNatBE (sig.take 32) < secpN ∧
       0 < bytesToNatBE (sig.drop 32) ∧ bytesToNatBE (sig.drop 32) < secpN then
      ecdsaCheck (bytesToNatBE digest % secpN) (bytesToNatBE (sig.take 32))
        (bytesToNatBE (sig.drop 32)) q
    else false

/-- secp256k1.verify: reject signatures that are not 64 bytes and public
keys that are not 33 bytes (InvalidEncoding), and otherwise report the
boolean ECDSA verdict — cryptographic mismatch is a result, not an
error. -/
def ecdsaVerify (digest sig pub : List Nat) : Except SigErr Bool :=
  if sig.length ≠ 64 then .error .InvalidEncoding
  else if pub.length ≠ 33 then .error .InvalidEncoding
  else .ok (ecdsaVerifyBool digest sig pub)

/-! ### The four operations of signing.js

These are the module's own code, embedded from the source.  Node's
source of randomness is modelled by passing the stream of 32-byte draws
as an argument, and a JS message string by the byte sequence Node hashes
for it (its UTF-8 encoding). -/

/-- createPrivateKey (signing.js lines 16-22): draw 32 random bytes until
they pass privateKeyVerify, and return them as lowercase hex.  The
candidate draws are the function's argument here; none means the stream
ran out before a draw passed, which the unbounded JS loop never reports. -/
def createPrivateKey : List (List Nat) → Option String
  | [] => none
  | draw :: rest =>
    if privateKeyVerify draw then some (hexEncode draw) else createPrivateKey rest

/-- getPublicKey (signing.js lines 37-43): decode the private key hex to
bytes, derive the public key, and return it as hex. -/
def getPublicKey (privateKey : String) : Except SigErr String :=
  (publicKeyCreate (hexDecode privateKey)).map hexEncode

/-- sign (signing.js lines 58-66): decode the private key hex, hash the
message to a hex digest and re-decode it to raw bytes — the
Buffer.from(createHash('sha256').update(message).digest('hex'), 'hex')
dance of the source — then sign the digest and return the signature as
hex. -/
def sign (privateKey : String) (message : List Nat) : Except SigErr String :=
  let pk := hexDecode privateKey
  let hash := hexDecode (hexEncode (sha256 message))
  (ecdsaSign hash pk).map hexEncode

/-- verify (signing.js lines 78-87): recompute the digest through the
same hex dance as sign, decode the signature and public key from hex,
and return the library's verdict. -/
def verify (publicKey : String) (message : List Nat) (signature : String) :
    Except SigErr Bool :=
  let hash := hexDecode (hexEncode (sha256 message))
  let sig := hexDecode signature
  let pub := hexDecode publicKey
  ecdsaVerify hash sig pub

/-- Decidable equality for Except results, so that concrete runs of the
operations can be checked by evaluation. -/
instance exceptDecEq {ε α : Type} [DecidableEq ε] [DecidableEq α] :
    DecidableEq (Except ε α)
  | .error e, .error f =>
    if h : e = f then .isTrue (by rw [h])
    else .isFalse (fun hc => h (by injection hc))
  | .error _, .ok _ => .isFalse (fun hc => Except.noConfusion hc)
  | .ok _, .error _ => .isFalse (fun hc => Except.noConfusion hc)
  | .ok a, .ok b =>
    if h : a = b then .isTrue (by rw [h])
    else .isFalse (fun hc => h (by injection hc))

/-! ### Supporting lemmas: bytes, hex, digests -/

theorem isBytes_append {as bs : List Nat} (ha : IsBytes as) (hb : IsBytes bs) :
    IsBytes (as ++ bs) := by
  intro b hbm
  rcases List.mem_append.mp hbm with h | h
  · exact ha b h
  · exact hb b h

theorem natToBytesBE_length (k v : Nat) : (natToBytesBE k v).length = k := by
  induction k generalizing v with
  | zero => rfl
  | succ k ih => simp [natToBytesBE, ih]

theorem natToBytesBE_isBytes (k v : Nat) : IsBytes (natToBytesBE k v) := by
  induction k generalizing v with
  | zero => intro b hb; simp [natToBytesBE] at hb
  | succ k ih =>
    intro b hb
    simp only [natToBytesBE, List.mem_append, List.mem_singleton] at hb
    rcases hb with h | h
    · exact ih _ b h
    · omega

theorem sha256_length (m : List Nat) : (sha256 m).length = 32 := by
  simp [sha256, natToBytesBE_length]

theorem sha256_isBytes (m : List Nat) : IsBytes (sha256 m) := by
  simp only [sha256]
  repeat' apply isBytes_append
  all_goals
    first
    | exact natToBytesBE_isBytes _ _
    | (intro b hb; simp only [List.mem_singleton] at hb; subst hb;
       exact Nat.mod_lt _ (by omega))

theorem hexDigitVal_lt {c : Char} {d : Nat} (h : hexDigitVal c = some d) : d < 16 := by
  unfold hexDigitVal at h
  split at h
  · simp at h; omega
  · split at h
    · simp at h; omega
    · split at h
      · simp at h; omega
      · exact absurd h (by simp)

theorem hexDigitVal_hexDigitChar {d : Nat} (h : d < 16) :
    hexDigitVal (hexDigitChar d) = some d := by
  interval_cases d <;> decide

theorem hexDecodeChars_isBytes : ∀ cs : List Char, IsBytes (hexDecodeChars cs)
  | [] => by intro b hb; simp [hexDecodeChars] at hb
  | [c] => by intro b hb; simp [hexDecodeChars] at hb
  | c1 :: c2 :: rest => by
    intro b hb
    unfold hexDecodeChars at hb
    rcases h1 : hexDigitVal c1 with _ | hi <;> rcases h2 : hexDigitVal c2 with _ | lo <;>
      simp [h1, h2] at hb
    rcases hb with h | h
    · have := hexDigitVal_lt h1
      have := hexDigitVal_lt h2
      omega
    · exact hexDecodeChars_isBytes rest b h

theorem hexDecode_isBytes (s : String) : IsBytes (hexDecode s) :=
  hexDecodeChars_isBytes s.data

theorem hexDecodeChars_hexEncodeBytes {bs : List Nat} (h : IsBytes bs) :
    hexDecodeChars (hexEncodeBytes bs) = bs := by
  induction bs with
  | nil => rfl
  | cons b rest ih =>
    have hb : b < 256 := h b (List.mem_cons_self b rest)
    have hrest : IsBytes rest := fun x hx => h x (List.mem_cons_of_mem b hx)
    have h1 : b / 16 % 16 < 16 := Nat.mod_lt _ (by omega)
    have h2 : b % 16 < 16 := Nat.mod_lt _ (by omega)
    simp only [hexEncodeBytes, hexDecodeChars,
      hexDigitVal_hexDigitChar h1, hexDigitVal_hexDigitChar h2, ih hrest]
    have : b / 16 % 16 = b / 16 := Nat.mod_eq_of_lt (by omega)
    rw [this]
    congr 1
    omega

theorem hexDecode_hexEncode {bs : List Nat} (h : IsBytes bs) :
    hexDecode (hexEncode bs) = bs :=
  hexDecodeChars_hexEncodeBytes h

theorem hexEncodeBytes_length (bs : List Nat) :
    (hexEncodeBytes bs).length = 2 * bs.length := by
  induction bs with
  | nil => rfl
  | cons b rest ih => simp [hexEncodeBytes, ih]; omega

theorem hexEncode_length (bs : List Nat) : (hexEncode bs).length = 2 * bs.length :=
  hexEncodeBytes_length bs

/-- The sixteen lowercase hex digit characters. -/
def lowerHexDigits : List Char := (List.range 16).map hexDigitChar

theorem hexDigitChar_mem {d : Nat} (h : d < 16) : hexDigitChar d ∈ lowerHexDigits :=
  List.mem_map.mpr ⟨d, List.mem_range.mpr h, rfl⟩

theorem hexEncodeBytes_mem {bs : List Nat} (h : IsBytes bs) :
    ∀ c ∈ hexEncodeBytes bs, c ∈ lowerHexDigits := by
  induction bs with
  | nil => intro c hc; simp [hexEncodeBytes] at hc
  | cons b rest ih =>
    intro c hc
    have hb : b < 256 := h b (List.mem_cons_self b rest)
    have hrest : IsBytes rest := fun x hx => h x (List.mem_cons_of_mem b hx)
    simp only [hexEncodeBytes, List.mem_cons] at hc
    rcases hc with rfl | rfl | hc
    · exact hexDigitChar_mem (Nat.mod_lt _ (by omega))
    · exact hexDigitChar_mem (Nat.mod_lt _ (by omega))
    · exact ih hrest c hc

theorem privateKeyVerify_iff (bs : List Nat) :
    privateKeyVerify bs = true ↔
      bs.length = 32 ∧ 0 < bytesToNatBE bs ∧ bytesToNatBE bs < secpN := by
  simp only [privateKeyVerify, Bool.and_eq_true, decide_eq_true_eq, and_assoc]

/-- The digest computed by sign and verify is the raw SHA-256 digest: the
source's detour through digest('hex') and Buffer.from(·, 'hex') is the
identity on the 32 digest bytes. -/
theorem hexDance_sha256 (m : List Nat) :
    hexDecode (hexEncode (sha256 m)) = sha256 m :=
  hexDecode_hexEncode (sha256_isBytes m)

theorem ecdsaSign_ok_length {dg pk bs : List Nat} (h : ecdsaSign dg pk = .ok bs) :
    bs.length = 64 := by
  unfold ecdsaSign at h
  split at h
  · exact absurd h (by simp)
  · split at h
    · exact absurd h (by simp)
    · split at h
      · exact absurd h (by simp)
      · split at h
        · exact absurd h (by simp)
        · simp only [Except.ok.injEq] at h
          subst h
          simp [natToBytesBE_length]

/-! ### Modular exponentiation agrees with the mathematical power -/

theorem powmodAux_eq (m : Nat) (hm : 1 < m) :
    ∀ (f b e acc : Nat), e < 2 ^ f → acc < m →
      powmodAux f b e m acc = acc * b ^ e % m := by
  intro f
  induction f with
  | zero =>
    intro b e acc he hacc
    interval_cases e
    simp [powmodAux, Nat.mod_eq_of_lt hacc]
  | succ f ih =>
    intro b e acc he hacc
    unfold powmodAux
    by_cases he0 : e = 0
    · subst he0
      simp [Nat.mod_eq_of_lt hacc]
    · rw [if_neg he0]
      have he2 : e / 2 < 2 ^ f := by
        have : 2 ^ (f + 1) = 2 * 2 ^ f := by ring
        omega
      have hb2 : b * b % m < m := Nat.mod_lt _ (by omega)
      have hsq : (b * b % m) ^ (e / 2) ≡ b ^ (2 * (e / 2)) [MOD m] := by
        calc (b * b % m) ^ (e / 2)
            ≡ (b * b) ^ (e / 2) [MOD m] := Nat.ModEq.pow _ (Nat.mod_modEq _ _)
          _ = b ^ (2 * (e / 2)) := by rw [pow_mul]; ring
      by_cases hodd : e % 2 = 1
      · rw [if_pos hodd, ih (b * b % m) (e / 2) (acc * b % m) he2 (Nat.mod_lt _ (by omega))]
        have hbe : b ^ e = b ^ (2 * (e / 2)) * b := by
          conv_lhs => rw [show e = 2 * (e / 2) + 1 by omega]
          rw [pow_succ]
        calc acc * b % m * (b * b % m) ^ (e / 2) % m
            = (acc * b * b ^ (2 * (e / 2))) % m :=
              Nat.ModEq.mul (Nat.mod_modEq _ _) hsq
          _ = acc * b ^ e % m := by rw [hbe]; ring_nf
      · rw [if_neg hodd, ih (b * b % m) (e / 2) acc he2 hacc]
        have hbe : b ^ e = b ^ (2 * (e / 2)) := by
          conv_lhs => rw [show e = 2 * (e / 2) by omega]
        calc acc * (b * b % m) ^ (e / 2) % m
            = (acc * b ^ (2 * (e / 2))) % m := Nat.ModEq.mul (Nat.ModEq.refl acc) hsq
          _ = acc * b ^ e % m := by rw [hbe]

theorem powmod_eq {m : Nat} (hm : 1 < m) (b e : Nat) (he : e < 2 ^ 300) :
    powmod b e m = b ^ e % m := by
  unfold powmod
  rw [powmodAux_eq m hm 300 (b % m) e (1 % m) he (Nat.mod_lt _ (by omega))]
  rw [Nat.mod_eq_of_lt hm, one_mul, ← Nat.pow_mod]

theorem powmod_lt {m : Nat} (hm : 1 < m) (b e : Nat) (he : e < 2 ^ 300) :
    powmod b e m < m := by
  rw [powmod_eq hm b e he]
  exact Nat.mod_lt _ (by omega)

theorem zmod_pow_natCast (m b e : Nat) (hm : 1 < m) (he : e < 2 ^ 300) :
    ((b : ZMod m)) ^ e = ((powmod b e m : Nat) : ZMod m) := by
  rw [powmod_eq hm b e he, ZMod.natCast_mod, Nat.cast_pow]

theorem zmod_pow_eq_one (p a e : Nat) (hp : 1 < p) (he : e < 2 ^ 300)
    (hv : powmod a e p = 1) : ((a : ZMod p)) ^ e = 1 := by
  rw [zmod_pow_natCast p a e hp he, hv, Nat.cast_one]

theorem zmod_pow_ne_one (p a e v : Nat) (hp : 1 < p) (he : e < 2 ^ 300)
    (hv : powmod a e p = v) (h1 : v ≠ 1) : ((a : ZMod p)) ^ e ≠ 1 := by
  rw [zmod_pow_natCast p a e hp he, hv]
  intro h
  rw [show (1 : ZMod p) = ((1 : Nat) : ZMod p) by simp, ZMod.natCast_eq_natCast_iff'] at h
  have hvp : v < p := by
    rw [← hv]
    exact powmod_lt hp a e he
  rw [Nat.mod_eq_of_lt hvp, Nat.mod_eq_of_lt hp] at h
  exact h1 h

/-! ### Primality certificates

Lucas certificates for the primes in the factor chains of the secp256k1
group order (and later the field modulus), checked by modular
exponentiation. -/

set_option maxRecDepth 100000 in
/-- Primality of 120233, by a Lucas certificate with generator 3. -/
theorem prime_120233 : Nat.Prime 120233 := by
  refine lucas_primality 120233 (3 : ZMod 120233) ?_ ?_
  · exact zmod_pow_eq_one 120233 3 (120233 - 1) (by norm_num) (by norm_num) (by decide)
  · intro q hq hdvd
    have hfac : 120233 - 1 = 2 ^ 3 * (7 * (19 * 113)) := by decide
    rw [hfac] at hdvd
    rcases (Nat.Prime.dvd_mul hq).mp hdvd with h | h
    · have hqe : q = 2 := (Nat.prime_dvd_prime_iff_eq hq (by norm_num)).mp (Nat.Prime.dvd_of_dvd_pow hq h)
      subst hqe
      exact zmod_pow_ne_one 120233 3 ((120233 - 1) / 2) 120232 (by norm_num) (by norm_num) (by decide) (by decide)
    · rcases (Nat.Prime.dvd_mul hq).mp h with h | h
      · have hqe : q = 7 := (Nat.prime_dvd_prime_iff_eq hq (by norm_num)).mp h
        subst hqe
        exact zmod_pow_ne_one 120233 3 ((120233 - 1) / 7) 41163 (by norm_num) (by norm_num) (by decide) (by decide)
      · rcases (Nat.Prime.dvd_mul hq).mp h with h | h
        · have hqe : q = 19 := (Nat.prime_dvd_prime_iff_eq hq (by norm_num)).mp h
          subst hqe
          exact zmod_pow_ne_one 120233 3 ((120233 - 1) / 19) 61639 (by norm_num) (by norm_num) (by decide) (by decide)
        · have hqe : q = 113 := (Nat.prime_dvd_prime_iff_eq hq (by norm_num)).mp h
          subst hqe
          exact zmod_pow_ne_one 120233 3 ((120233 - 1) / 113) 80142 (by norm_num) (by norm_num) (by decide) (by decide)

set_option maxRecDepth 100000 in
/-- Primality of 305873, by a Lucas certificate with generator 3. -/
theorem prime_305873 : Nat.Prime 305873 := by
  refine lucas_primality 305873 (3 : ZMod 305873) ?_ ?_
  · exact zmod_pow_eq_one 305873 3 (305873 - 1) (by norm_num) (by norm_num) (by decide)
  · intro q hq hdvd
    have hfac : 305873 - 1 = 2 ^ 4 * (7 * 2731) := by decide
    rw [hfac] at hdvd
    rcases (Nat.Prime.dvd_mul hq).mp hdvd with h | h
    · have hqe : q = 2 := (Nat.prime_dvd_prime_iff_eq hq (by norm_num)).mp (Nat.Prime.dvd_of_dvd_pow hq h)
      subst hqe
      exact zmod_pow_ne_one 305873 3 ((305873 - 1) / 2) 305872 (by norm_num) (by norm_num) (by decide) (by decide)
    · rcases (Nat.Prime.dvd_mul hq).mp h with h | h
      · have hqe : q = 7 := (Nat.prime_dvd_prime_iff_eq hq (by norm_num)).mp h
        subst hqe
        exact zmod_pow_ne_one 305873 3 ((305873 - 1) / 7) 145208 (by norm_num) (by norm_num) (by decide) (by decide)
      · have hqe : q = 2731 := (Nat.prime_dvd_prime_iff_eq hq (by norm_num)).mp h
        subst hqe
        exact zmod_pow_ne_one 305873 3 ((305873 - 1) / 2731) 133117 (by norm_num) (by norm_num) (by decide) (by decide)

set_option maxRecDepth 100000 in
/-- Primality of 1627771, by a Lucas certificate with generator 3. -/
theorem prime_1627771 : Nat.Prime 1627771 := by
  refine lucas_primality 1627771 (3 : ZMod 1627771) ?_ ?_
  · exact zmod_pow_eq_one 1627771 3 (1627771 - 1) (by norm_num) (by norm_num) (by decide)
  · intro q hq hdvd
    have hfac : 1627771 - 1 = 2 * (3 * (5 * (29 * 1871))) := by decide
    rw [hfac] at hdvd
    rcases (Nat.Prime.dvd_mul hq).mp hdvd with h | h
    · have hqe : q = 2 := (Nat.prime_dvd_prime_iff_eq hq (by norm_num)).mp h
      subst hqe
      exact zmod_pow_ne_one 1627771 3 ((1627771 - 1) / 2) 1627770 (by norm_num) (by norm_num) (by decide) (by decide)
    · rcases (Nat.Prime.dvd_mul hq).mp h with h | h
      · have hqe : q = 3 := (Nat.prime_dvd_prime_iff_eq hq (by norm_num)).mp h
        subst hqe
        exact zmod_pow_ne_one 1627771 3 ((1627771 - 1) / 3) 1274054 (by norm_num) (by norm_num) (by decide) (by decide)
      · rcases (Nat.Prime.dvd_mul hq).mp h with h | h
        · have hqe : q = 5 := (Nat.prime_dvd_prime_iff_eq hq (by norm_num)).mp h
          subst hqe
          exact zmod_pow_ne_one 1627771 3 ((1627771 - 1) / 5) 528870 (by norm_num) (by norm_num) (by decide) (by decide)
        · rcases (Nat.Prime.dvd_mul hq).mp h with h | h
          · have hqe : q = 29 := (Nat.prime_dvd_prime_iff_eq hq (by norm_num)).mp h
            subst hqe
            exact zmod_pow_ne_one 1627771 3 ((1627771 - 1) / 29) 366762 (by norm_num) (by norm_num) (by decide) (by decide)
          · have hqe : q = 1871 := (Nat.prime_dvd_prime_iff_eq hq (by norm_num)).mp h
            subst hqe
            exact zmod_pow_ne_one 1627771 3 ((1627771 - 1) / 1871) 132478 (by norm_num) (by norm_num) (by decide) (by decide)

set_option maxRecDepth 100000 in
/-- Primality of 4681609, by a Lucas certificate with generator 23. -/
theorem prime_4681609 : Nat.Prime 4681609 := by
  refine lucas_primality 4681609 (23 : ZMod 4681609) ?_ ?_
  · exact zmod_pow_eq_one 4681609 23 (4681609 - 1) (by norm_num) (by norm_num) (by decide)
  · intro q hq hdvd
    have hfac : 4681609 - 1 = 2 ^ 3 * (3 * (97 * 2011)) := by decide
    rw [hfac] at hdvd
    rcases (Nat.Prime.dvd_mul hq).mp hdvd with h | h
    · have hqe : q = 2 := (Nat.prime_dvd_prime_iff_eq hq (by norm_num)).mp (Nat.Prime.dvd_of_dvd_pow hq h)
      subst hqe
      exact zmod_pow_ne_one 4681609 23 ((4681609 - 1) / 2) 4681608 (by norm_num) (by norm_num) (by decide) (by decide)
    · rcases (Nat.Prime.dvd_mul hq).mp h with h | h
      · have hqe : q = 3 := (Nat.prime_dvd_prime_iff_eq hq (by norm_num)).mp h
        subst hqe
        exact zmod_pow_ne_one 4681609 23 ((4681609 - 1) / 3) 4655375 (by norm_num) (by norm_num) (by decide) (by decide)
      · rcases (Nat.Prime.dvd_mul hq).mp h with h | h
        · have hqe : q = 97 := (Nat.prime_dvd_prime_iff_eq hq (by norm_num)).mp h
          subst hqe
          exact zmod_pow_ne_one 4681609 23 ((4681609 - 1) / 97) 2645224 (by norm_num) (by norm_num) (by decide) (by decide)
        · have hqe : q = 2011 := (Nat.prime_dvd_prime_iff_eq hq (by norm_num)).mp h
          subst hqe
          exact zmod_pow_ne_one 4681609 23 ((4681609 - 1) / 2011) 3128060 (by norm_num) (by norm_num) (by decide) (by decide)

set_option maxRecDepth 100000 in
/-- Primality of 44706919, by a Lucas certificate with generator 6. -/
theorem prime_44706919 : Nat.Prime 44706919 := by
  refine lucas_primality 44706919 (6 : ZMod 44706919) ?_ ?_
  · exact zmod_pow_eq_one 44706919 6 (44706919 - 1) (by norm_num) (by norm_num) (by decide)
  · intro q hq hdvd
    have hfac : 44706919 - 1 = 2 * (3 * (797 * 9349)) := by decide
    rw [hfac] at hdvd
    rcases (Nat.Prime.dvd_mul hq).mp hdvd with h | h
    · have hqe : q = 2 := (Nat.prime_dvd_prime_iff_eq hq (by norm_num)).mp h
      subst hqe
      exact zmod_pow_ne_one 44706919 6 ((44706919 - 1) / 2) 44706918 (by norm_num) (by norm_num) (by decide) (by decide)
    · rcases (Nat.Prime.dvd_mul hq).mp h with h | h
      · have hqe : q = 3 := (Nat.prime_dvd_prime_iff_eq hq (by norm_num)).mp h
        subst hqe
        exact zmod_pow_ne_one 44706919 6 ((44706919 - 1) / 3) 30500379 (by norm_num) (by norm_num) (by decide) (by decide)
      · rcases (Nat.Prime.dvd_mul hq).mp h with h | h
        · have hqe : q = 797 := (Nat.prime_dvd_prime_iff_eq hq (by norm_num)).mp h
          subst hqe
          exact zmod_pow_ne_one 44706919 6 ((44706919 - 1) / 797) 41156332 (by norm_num) (by norm_num) (by decide) (by decide)
        · have hqe : q = 9349 := (Nat.prime_dvd_prime_iff_eq hq (by norm_num)).mp h
          subst hqe
          exact zmod_pow_ne_one 44706919 6 ((44706919 - 1) / 9349) 6711465 (by norm_num) (by norm_num) (by decide) (by decide)

set_option maxRecDepth 100000 in
/-- Primality of 545358713, by a Lucas certificate with generator 5. -/
theorem prime_545358713 : Nat.Prime 545358713 := by
  refine lucas_primality 545358713 (5 : ZMod 545358713) ?_ ?_
  · exact zmod_pow_eq_one 545358713 5 (545358713 - 1) (by norm_num) (by norm_num) (by decide)
  · intro q hq hdvd
    have hfac : 545358713 - 1 = 2 ^ 3 * (41 * (59 * 28181)) := by decide
    rw [hfac] at hdvd
    rcases (Nat.Prime.dvd_mul hq).mp hdvd with h | h
    · have hqe : q = 2 := (Nat.prime_dvd_prime_iff_eq hq (by norm_num)).mp (Nat.Prime.dvd_of_dvd_pow hq h)
      subst hqe
      exact zmod_pow_ne_one 545358713 5 ((545358713 - 1) / 2) 545358712 (by norm_num) (by norm_num) (by decide) (by decide)
    · rcases (Nat.Prime.dvd_mul hq).mp h with h | h
      · have hqe : q = 41 := (Nat.prime_dvd_prime_iff_eq hq (by norm_num)).mp h
        subst hqe
        exact zmod_pow_ne_one 545358713 5 ((545358713 - 1) / 41) 232418614 (by norm_num) (by norm_num) (by decide) (by decide)
      · rcases (Nat.Prime.dvd_mul hq).mp h with h | h
        · have hqe : q = 59 := (Nat.prime_dvd_prime_iff_eq hq (by norm_num)).mp h
          subst hqe
          exact zmod_pow_ne_one 545358713 5 ((545358713 - 1) / 59) 256734421 (by norm_num) (by norm_num) (by decide) (by decide)
        · have hqe : q = 28181 := (Nat.prime_dvd_prime_iff_eq hq (by norm_num)).mp h
          subst hqe
          exact zmod_pow_ne_one 545358713 5 ((545358713 - 1) / 28181) 453985277 (by norm_num) (by norm_num) (by decide) (by decide)

set_option maxRecDepth 100000 in
/-- Primality of 297159362677, by a Lucas certificate with generator 2. -/
theorem prime_297159362677 : Nat.Prime 297159362677 := by
  refine lucas_primality 297159362677 (2 : ZMod 297159362677) ?_ ?_
  · exact zmod_pow_eq_one 297159362677 2 (297159362677 - 1) (by norm_num) (by norm_num) (by decide)
  · intro q hq hdvd
    have hfac : 297159362677 - 1 = 2 ^ 2 * (3 ^ 2 * (11 * (461 * 1627771))) := by decide
    rw [hfac] at hdvd
    rcases (Nat.Prime.dvd_mul hq).mp hdvd with h | h
    · have hqe : q = 2 := (Nat.prime_dvd_prime_iff_eq hq (by norm_num)).mp (Nat.Prime.dvd_of_dvd_pow hq h)
      subst hqe
      exact zmod_pow_ne_one 297159362677 2 ((297159362677 - 1) / 2) 297159362676 (by norm_num) (by norm_num) (by decide) (by decide)
    · rcases (Nat.Prime.dvd_mul hq).mp h with h | h
      · have hqe : q = 3 := (Nat.prime_dvd_prime_iff_eq hq (by norm_num)).mp (Nat.Prime.dvd_of_dvd_pow hq h)
        subst hqe
        exact zmod_pow_ne_one 297159362677 2 ((297159362677 - 1) / 3) 21378871788 (by norm_num) (by norm_num) (by decide) (by decide)
      · rcases (Nat.Prime.dvd_mul hq).mp h with h | h
        · have hqe : q = 11 := (Nat.prime_dvd_prime_iff_eq hq (by norm_num)).mp h
          subst hqe
          exact zmod_pow_ne_one 297159362677 2 ((297159362677 - 1) / 11) 235971553533 (by norm_num) (by norm_num) (by decide) (by decide)
        · rcases (Nat.Prime.dvd_mul hq).mp h with h | h
          · have hqe : q = 461 := (Nat.prime_dvd_prime_iff_eq hq (by norm_num)).mp h
            subst hqe
            exact zmod_pow_ne_one 297159362677 2 ((297159362677 - 1) / 461) 238970074943 (by norm_num) (by norm_num) (by decide) (by decide)
          · have hqe : q = 1627771 := (Nat.prime_dvd_prime_iff_eq hq prime_1627771).mp h
            subst hqe
            exact zmod_pow_ne_one 297159362677 2 ((297159362677 - 1) / 1627771) 114170894341 (by norm_num) (by norm_num) (by decide) (by decide)

set_option maxRecDepth 100000 in
/-- Primality of 107361793816595537, by a Lucas certificate with generator 3. -/
theorem prime_107361793816595537 : Nat.Prime 107361793816595537 := by
  refine lucas_primality 107361793816595537 (3 : ZMod 107361793816595537) ?_ ?_
  · exact zmod_pow_eq_one 107361793816595537 3 (107361793816595537 - 1) (by norm_num) (by norm_num) (by decide)
  · intro q hq hdvd
    have hfac : 107361793816595537 - 1 = 2 ^ 4 * (16699 * (85831 * 4681609)) := by decide
    rw [hfac] at hdvd
    rcases (Nat.Prime.dvd_mul hq).mp hdvd with h | h
    · have hqe : q = 2 := (Nat.prime_dvd_prime_iff_eq hq (by norm_num)).mp (Nat.Prime.dvd_of_dvd_pow hq h)
      subst hqe
      exact zmod_pow_ne_one 107361793816595537 3 ((107361793816595537 - 1) / 2) 107361793816595536 (by norm_num) (by norm_num) (by decide) (by decide)
    · rcases (Nat.Prime.dvd_mul hq).mp h with h | h
      · have hqe : q = 16699 := (Nat.prime_dvd_prime_iff_eq hq (by norm_num)).mp h
        subst hqe
        exact zmod_pow_ne_one 107361793816595537 3 ((107361793816595537 - 1) / 16699) 5951470030516601 (by norm_num) (by norm_num) (by decide) (by decide)
      · rcases (Nat.Prime.dvd_mul hq).mp h with h | h
        · have hqe : q = 85831 := (Nat.prime_dvd_prime_iff_eq hq (by norm_num)).mp h
          subst hqe
          exact zmod_pow_ne_one 107361793816595537 3 ((107361793816595537 - 1) / 85831) 43062364984479349 (by norm_num) (by norm_num) (by decide) (by decide)
        · have hqe : q = 4681609 := (Nat.prime_dvd_prime_iff_eq hq prime_4681609).mp h
          subst hqe
          exact zmod_pow_ne_one 107361793816595537 3 ((107361793816595537 - 1) / 4681609) 38869239624772579 (by norm_num) (by norm_num) (by decide) (by decide)

set_option maxRecDepth 100000 in
/-- Primality of 174723607534414371449, by a Lucas certificate with generator 3. -/
theorem prime_174723607534414371449 : Nat.Prime 174723607534414371449 := by
  refine lucas_primality 174723607534414371449 (3 : ZMod 174723607534414371449) ?_ ?_
  · exact zmod_pow_eq_one 174723607534414371449 3 (174723607534414371449 - 1) (by norm_num) (by norm_num) (by decide)
  · intro q hq hdvd
    have hfac : 174723607534414371449 - 1 = 2 ^ 3 * (17 * (59 * (4051 * (120233 * 44706919)))) := by decide
    rw [hfac] at hdvd
    rcases (Nat.Prime.dvd_mul hq).mp hdvd with h | h
    · have hqe : q = 2 := (Nat.prime_dvd_prime_iff_eq hq (by norm_num)).mp (Nat.Prime.dvd_of_dvd_pow hq h)
      subst hqe
      exact zmod_pow_ne_one 174723607534414371449 3 ((174723607534414371449 - 1) / 2) 174723607534414371448 (by norm_num) (by norm_num) (by decide) (by decide)
    · rcases (Nat.Prime.dvd_mul hq).mp h with h | h
      · have hqe : q = 17 := (Nat.prime_dvd_prime_iff_eq hq (by norm_num)).mp h
        subst hqe
        exact zmod_pow_ne_one 174723607534414371449 3 ((174723607534414371449 - 1) / 17) 143977312736193201955 (by norm_num) (by norm_num) (by decide) (by decide)
      · rcases (Nat.Prime.dvd_mul hq).mp h with h | h
        · have hqe : q = 59 := (Nat.prime_dvd_prime_iff_eq hq (by norm_num)).mp h
          subst hqe
          exact zmod_pow_ne_one 174723607534414371449 3 ((174723607534414371449 - 1) / 59) 101275312590739994117 (by norm_num) (by norm_num) (by decide) (by decide)
        · rcases (Nat.Prime.dvd_mul hq).mp h with h | h
          · have hqe : q = 4051 := (Nat.prime_dvd_prime_iff_eq hq (by norm_num)).mp h
            subst hqe
            exact zmod_pow_ne_one 174723607534414371449 3 ((174723607534414371449 - 1) / 4051) 117775491988442121468 (by norm_num) (by norm_num) (by decide) (by decide)
          · rcases (Nat.Prime.dvd_mul hq).mp h with h | h
            · have hqe : q = 120233 := (Nat.prime_dvd_prime_iff_eq hq prime_120233).mp h
              subst hqe
              exact zmod_pow_ne_one 174723607534414371449 3 ((174723607534414371449 - 1) / 120233) 143725591556162883674 (by norm_num) (by norm_num) (by decide) (by decide)
            · have hqe : q = 44706919 := (Nat.prime_dvd_prime_iff_eq hq prime_44706919).mp h
              subst hqe
              exact zmod_pow_ne_one 174723607534414371449 3 ((174723607534414371449 - 1) / 44706919) 72059039805266995621 (by norm_num) (by norm_num) (by decide) (by decide)

set_option maxRecDepth 100000 in
/-- Primality of 29047611873442575647497758179, by a Lucas certificate with generator 2. -/
theorem prime_29047611873442575647497758179 : Nat.Prime 29047611873442575647497758179 := by
  refine lucas_primality 29047611873442575647497758179 (2 : ZMod 29047611873442575647497758179) ?_ ?_
  · exact zmod_pow_eq_one 29047611873442575647497758179 2 (29047611873442575647497758179 - 1) (by norm_num) (by norm_num) (by decide)
  · intro q hq hdvd
    have hfac : 29047611873442575647497758179 - 1 = 2 * (293 * (305873 * (545358713 * 297159362677))) := by decide
    rw [hfac] at hdvd
    rcases (Nat.Prime.dvd_mul hq).mp hdvd with h | h
    · have hqe : q = 2 := (Nat.prime_dvd_prime_iff_eq hq (by norm_num)).mp h
      subst hqe
      exact zmod_pow_ne_one 29047611873442575647497758179 2 ((29047611873442575647497758179 - 1) / 2) 29047611873442575647497758178 (by norm_num) (by norm_num) (by decide) (by decide)
    · rcases (Nat.Prime.dvd_mul hq).mp h with h | h
      · have hqe : q = 293 := (Nat.prime_dvd_prime_iff_eq hq (by norm_num)).mp h
        subst hqe
        exact zmod_pow_ne_one 29047611873442575647497758179 2 ((29047611873442575647497758179 - 1) / 293) 6256662822391641148461841119 (by norm_num) (by norm_num) (by decide) (by decide)
      · rcases (Nat.Prime.dvd_mul hq).mp h with h | h
        · have hqe : q = 305873 := (Nat.prime_dvd_prime_iff_eq hq prime_305873).mp h
          subst hqe
          exact zmod_pow_ne_one 29047611873442575647497758179 2 ((29047611873442575647497758179 - 1) / 305873) 15515419077790409984750505041 (by norm_num) (by norm_num) (by decide) (by decide)
        · rcases (Nat.Prime.dvd_mul hq).mp h with h | h
          · have hqe : q = 545358713 := (Nat.prime_dvd_prime_iff_eq hq prime_545358713).mp h
            subst hqe
            exact zmod_pow_ne_one 29047611873442575647497758179 2 ((29047611873442575647497758179 - 1) / 545358713) 1548700731856248688196814844 (by norm_num) (by norm_num) (by decide) (by decide)
          · have hqe : q = 297159362677 := (Nat.prime_dvd_prime_iff_eq hq prime_297159362677).mp h
            subst hqe
            exact zmod_pow_ne_one 29047611873442575647497758179 2 ((29047611873442575647497758179 - 1) / 297159362677) 16062460713643416818883781819 (by norm_num) (by norm_num) (by decide) (by decide)

set_option maxRecDepth 100000 in
/-- Primality of 341948486974166000522343609283189, by a Lucas certificate with generator 2. -/
theorem prime_341948486974166000522343609283189 : Nat.Prime 341948486974166000522343609283189 := by
  refine lucas_primality 341948486974166000522343609283189 (2 : ZMod 341948486974166000522343609283189) ?_ ?_
  · exact zmod_pow_eq_one 341948486974166000522343609283189 2 (341948486974166000522343609283189 - 1) (by norm_num) (by norm_num) (by decide)
  · intro q hq hdvd
    have hfac : 341948486974166000522343609283189 - 1 = 2 ^ 2 * (3 ^ 3 * (109 * 29047611873442575647497758179)) := by decide
    rw [hfac] at hdvd
    rcases (Nat.Prime.dvd_mul hq).mp hdvd with h | h
    · have hqe : q = 2 := (Nat.prime_dvd_prime_iff_eq hq (by norm_num)).mp (Nat.Prime.dvd_of_dvd_pow hq h)
      subst hqe
      exact zmod_pow_ne_one 341948486974166000522343609283189 2 ((341948486974166000522343609283189 - 1) / 2) 341948486974166000522343609283188 (by norm_num) (by norm_num) (by decide) (by decide)
    · rcases (Nat.Prime.dvd_mul hq).mp h with h | h
      · have hqe : q = 3 := (Nat.prime_dvd_prime_iff_eq hq (by norm_num)).mp (Nat.Prime.dvd_of_dvd_pow hq h)
        subst hqe
        exact zmod_pow_ne_one 341948486974166000522343609283189 2 ((341948486974166000522343609283189 - 1) / 3) 165002932037550746596172898062794 (by norm_num) (by norm_num) (by decide) (by decide)
      · rcases (Nat.Prime.dvd_mul hq).mp h with h | h
        · have hqe : q = 109 := (Nat.prime_dvd_prime_iff_eq hq (by norm_num)).mp h
          subst hqe
          exact zmod_pow_ne_one 341948486974166000522343609283189 2 ((341948486974166000522343609283189 - 1) / 109) 153618737808983370202320649387857 (by norm_num) (by norm_num) (by decide) (by decide)
        · have hqe : q = 29047611873442575647497758179 := (Nat.prime_dvd_prime_iff_eq hq prime_29047611873442575647497758179).mp h
          subst hqe
          exact zmod_pow_ne_one 341948486974166000522343609283189 2 ((341948486974166000522343609283189 - 1) / 29047611873442575647497758179) 291782875431971620014836968593543 (by norm_num) (by norm_num) (by decide) (by decide)

set_option maxRecDepth 100000 in
/-- Primality of 115792089237316195423570985008687907852837564279074904382605163141518161494337, by a Lucas certificate with generator 7. -/
theorem prime_115792089237316195423570985008687907852837564279074904382605163141518161494337 : Nat.Prime 115792089237316195423570985008687907852837564279074904382605163141518161494337 := by
  refine lucas_primality 115792089237316195423570985008687907852837564279074904382605163141518161494337 (7 : ZMod 115792089237316195423570985008687907852837564279074904382605163141518161494337) ?_ ?_
  · exact zmod_pow_eq_one 115792089237316195423570985008687907852837564279074904382605163141518161494337 7 (115792089237316195423570985008687907852837564279074904382605163141518161494337 - 1) (by norm_num) (by norm_num) (by decide)
  · intro q hq hdvd
    have hfac : 115792089237316195423570985008687907852837564279074904382605163141518161494337 - 1 = 2 ^ 6 * (3 * (149 * (631 * (107361793816595537 * (174723607534414371449 * 341948486974166000522343609283189))))) := by decide
    rw [hfac] at hdvd
    rcases (Nat.Prime.dvd_mul hq).mp hdvd with h | h
    · have hqe : q = 2 := (Nat.prime_dvd_prime_iff_eq hq (by norm_num)).mp (Nat.Prime.dvd_of_dvd_pow hq h)
      subst hqe
      exact zmod_pow_ne_one 115792089237316195423570985008687907852837564279074904382605163141518161494337 7 ((115792089237316195423570985008687907852837564279074904382605163141518161494337 - 1) / 2) 115792089237316195423570985008687907852837564279074904382605163141518161494336 (by norm_num) (by norm_num) (by decide) (by decide)
    · rcases (Nat.Prime.dvd_mul hq).mp h with h | h
      · have hqe : q = 3 := (Nat.prime_dvd_prime_iff_eq hq (by norm_num)).mp h
        subst hqe
        exact zmod_pow_ne_one 115792089237316195423570985008687907852837564279074904382605163141518161494337 7 ((115792089237316195423570985008687907852837564279074904382605163141518161494337 - 1) / 3) 78074008874160198520644763525212887401909906723592317393988542598630163514318 (by norm_num) (by norm_num) (by decide) (by decide)
      · rcases (Nat.Prime.dvd_mul hq).mp h with h | h
        · have hqe : q = 149 := (Nat.prime_dvd_prime_iff_eq hq (by norm_num)).mp h
          subst hqe
          exact zmod_pow_ne_one 115792089237316195423570985008687907852837564279074904382605163141518161494337 7 ((115792089237316195423570985008687907852837564279074904382605163141518161494337 - 1) / 149) 64883128911135277911836602334573374963230868236696644030005288079353585574111 (by norm_num) (by norm_num) (by decide) (by decide)
        · rcases (Nat.Prime.dvd_mul hq).mp h with h | h
          · have hqe : q = 631 := (Nat.prime_dvd_prime_iff_eq hq (by norm_num)).mp h
            subst hqe
            exact zmod_pow_ne_one 115792089237316195423570985008687907852837564279074904382605163141518161494337 7 ((115792089237316195423570985008687907852837564279074904382605163141518161494337 - 1) / 631) 6252150074946714737332729428705675642972902278047830378127425501959375813903 (by norm_num) (by norm_num) (by decide) (by decide)
          · rcases (Nat.Prime.dvd_mul hq).mp h with h | h
            · have hqe : q = 107361793816595537 := (Nat.prime_dvd_prime_iff_eq hq prime_107361793816595537).mp h
              subst hqe
              exact zmod_pow_ne_one 115792089237316195423570985008687907852837564279074904382605163141518161494337 7 ((115792089237316195423570985008687907852837564279074904382605163141518161494337 - 1) / 107361793816595537) 26709443456820378470009624069039436105476083851490662296256974102742433182582 (by norm_num) (by norm_num) (by decide) (by decide)
            · rcases (Nat.Prime.dvd_mul hq).mp h with h | h
              · have hqe : q = 174723607534414371449 := (Nat.prime_dvd_prime_iff_eq hq prime_174723607534414371449).mp h
                subst hqe
                exact zmod_pow_ne_one 115792089237316195423570985008687907852837564279074904382605163141518161494337 7 ((115792089237316195423570985008687907852837564279074904382605163141518161494337 - 1) / 174723607534414371449) 38287106903381487806596844795024845528187487515989485561747806759347824233212 (by norm_num) (by norm_num) (by decide) (by decide)
              · have hqe : q = 341948486974166000522343609283189 := (Nat.prime_dvd_prime_iff_eq hq prime_341948486974166000522343609283189).mp h
                subst hqe
                exact zmod_pow_ne_one 115792089237316195423570985008687907852837564279074904382605163141518161494337 7 ((115792089237316195423570985008687907852837564279074904382605163141518161494337 - 1) / 341948486974166000522343609283189) 40330847986065730117990277892798860778585692388550324850907595869688089295689 (by norm_num) (by norm_num) (by decide) (by decide)

set_option maxRecDepth 100000 in
/-- Primality of 1206781, by a Lucas certificate with generator 10. -/
theorem prime_1206781 : Nat.Prime 1206781 := by
  refine lucas_primality 1206781 (10 : ZMod 1206781) ?_ ?_
  · exact zmod_pow_eq_one 1206781 10 (1206781 - 1) (by norm_num) (by norm_num) (by decide)
  · intro q hq hdvd
    have hfac : 1206781 - 1 = 2 ^ 2 * (3 * (5 * 20113)) := by decide
    rw [hfac] at hdvd
    rcases (Nat.Prime.dvd_mul hq).mp hdvd with h | h
    · have hqe : q = 2 := (Nat.prime_dvd_prime_iff_eq hq (by norm_num)).mp (Nat.Prime.dvd_of_dvd_pow hq h)
      subst hqe
      exact zmod_pow_ne_one 1206781 10 ((1206781 - 1) / 2) 1206780 (by norm_num) (by norm_num) (by decide) (by decide)
    · rcases (Nat.Prime.dvd_mul hq).mp h with h | h
      · have hqe : q = 3 := (Nat.prime_dvd_prime_iff_eq hq (by norm_num)).mp h
        subst hqe
        exact zmod_pow_ne_one 1206781 10 ((1206781 - 1) / 3) 608272 (by norm_num) (by norm_num) (by decide) (by decide)
      · rcases (Nat.Prime.dvd_mul hq).mp h with h | h
        · have hqe : q = 5 := (Nat.prime_dvd_prime_iff_eq hq (by norm_num)).mp h
          subst hqe
          exact zmod_pow_ne_one 1206781 10 ((1206781 - 1) / 5) 1065415 (by norm_num) (by norm_num) (by decide) (by decide)
        · have hqe : q = 20113 := (Nat.prime_dvd_prime_iff_eq hq (by norm_num)).mp h
          subst hqe
          exact zmod_pow_ne_one 1206781 10 ((1206781 - 1) / 20113) 888380 (by norm_num) (by norm_num) (by decide) (by decide)

set_option maxRecDepth 100000 in
/-- Primality of 7240687, by a Lucas certificate with generator 3. -/
theorem prime_7240687 : Nat.Prime 7240687 := by
  refine lucas_primality 7240687 (3 : ZMod 7240687) ?_ ?_
  · exact zmod_pow_eq_one 7240687 3 (7240687 - 1) (by norm_num) (by norm_num) (by decide)
  · intro q hq hdvd
    have hfac : 7240687 - 1 = 2 * (3 * 1206781) := by decide
    rw [hfac] at hdvd
    rcases (Nat.Prime.dvd_mul hq).mp hdvd with h | h
    · have hqe : q = 2 := (Nat.prime_dvd_prime_iff_eq hq (by norm_num)).mp h
      subst hqe
      exact zmod_pow_ne_one 7240687 3 ((7240687 - 1) / 2) 7240686 (by norm_num) (by norm_num) (by decide) (by decide)
    · rcases (Nat.Prime.dvd_mul hq).mp h with h | h
      · have hqe : q = 3 := (Nat.prime_dvd_prime_iff_eq hq (by norm_num)).mp h
        subst hqe
        exact zmod_pow_ne_one 7240687 3 ((7240687 - 1) / 3) 6501936 (by norm_num) (by norm_num) (by decide) (by decide)
      · have hqe : q = 1206781 := (Nat.prime_dvd_prime_iff_eq hq prime_1206781).mp h
        subst hqe
        exact zmod_pow_ne_one 7240687 3 ((7240687 - 1) / 1206781) 729 (by norm_num) (by norm_num) (by decide) (by decide)

set_option maxRecDepth 100000 in
/-- Primality of 13331831, by a Lucas certificate with generator 13. -/
theorem prime_13331831 : Nat.Prime 13331831 := by
  refine lucas_primality 13331831 (13 : ZMod 13331831) ?_ ?_
  · exact zmod_pow_eq_one 13331831 13 (13331831 - 1) (by norm_num) (by norm_num) (by decide)
  · intro q hq hdvd
    have hfac : 13331831 - 1 = 2 * (5 * (971 * 1373)) := by decide
    rw [hfac] at hdvd
    rcases (Nat.Prime.dvd_mul hq).mp hdvd with h | h
    · have hqe : q = 2 := (Nat.prime_dvd_prime_iff_eq hq (by norm_num)).mp h
      subst hqe
      exact zmod_pow_ne_one 13331831 13 ((13331831 - 1) / 2) 13331830 (by norm_num) (by norm_num) (by decide) (by decide)
    · rcases (Nat.Prime.dvd_mul hq).mp h with h | h
      · have hqe : q = 5 := (Nat.prime_dvd_prime_iff_eq hq (by norm_num)).mp h
        subst hqe
        exact zmod_pow_ne_one 13331831 13 ((13331831 - 1) / 5) 1325729 (by norm_num) (by norm_num) (by decide) (by decide)
      · rcases (Nat.Prime.dvd_mul hq).mp h with h | h
        · have hqe : q = 971 := (Nat.prime_dvd_prime_iff_eq hq (by norm_num)).mp h
          subst hqe
          exact zmod_pow_ne_one 13331831 13 ((13331831 - 1) / 971) 54862 (by norm_num) (by norm_num) (by decide) (by decide)
        · have hqe : q = 1373 := (Nat.prime_dvd_prime_iff_eq hq (by norm_num)).mp h
          subst hqe
          exact zmod_pow_ne_one 13331831 13 ((13331831 - 1) / 1373) 1273336 (by norm_num) (by norm_num) (by decide) (by decide)

set_option maxRecDepth 100000 in
/-- Primality of 107590001, by a Lucas certificate with generator 3. -/
theorem prime_107590001 : Nat.Prime 107590001 := by
  refine lucas_primality 107590001 (3 : ZMod 107590001) ?_ ?_
  · exact zmod_pow_eq_one 107590001 3 (107590001 - 1) (by norm_num) (by norm_num) (by decide)
  · intro q hq hdvd
    have hfac : 107590001 - 1 = 2 ^ 4 * (5 ^ 4 * (7 * (29 * 53))) := by decide
    rw [hfac] at hdvd
    rcases (Nat.Prime.dvd_mul hq).mp hdvd with h | h
    · have hqe : q = 2 := (Nat.prime_dvd_prime_iff_eq hq (by norm_num)).mp (Nat.Prime.dvd_of_dvd_pow hq h)
      subst hqe
      exact zmod_pow_ne_one 107590001 3 ((107590001 - 1) / 2) 107590000 (by norm_num) (by norm_num) (by decide) (by decide)
    · rcases (Nat.Prime.dvd_mul hq).mp h with h | h
      · have hqe : q = 5 := (Nat.prime_dvd_prime_iff_eq hq (by norm_num)).mp (Nat.Prime.dvd_of_dvd_pow hq h)
        subst hqe
        exact zmod_pow_ne_one 107590001 3 ((107590001 - 1) / 5) 67174630 (by norm_num) (by norm_num) (by decide) (by decide)
      · rcases (Nat.Prime.dvd_mul hq).mp h with h | h
        · have hqe : q = 7 := (Nat.prime_dvd_prime_iff_eq hq (by norm_num)).mp h
          subst hqe
          exact zmod_pow_ne_one 107590001 3 ((107590001 - 1) / 7) 37492364 (by norm_num) (by norm_num) (by decide) (by decide)
        · rcases (Nat.Prime.dvd_mul hq).mp h with h | h
          · have hqe : q = 29 := (Nat.prime_dvd_prime_iff_eq hq (by norm_num)).mp h
            subst hqe
            exact zmod_pow_ne_one 107590001 3 ((107590001 - 1) / 29) 32711690 (by norm_num) (by norm_num) (by decide) (by decide)
          · have hqe : q = 53 := (Nat.prime_dvd_prime_iff_eq hq (by norm_num)).mp h
            subst hqe
            exact zmod_pow_ne_one 107590001 3 ((107590001 - 1) / 53) 15240736 (by norm_num) (by norm_num) (by decide) (by decide)

set_option maxRecDepth 100000 in
/-- Primality of 173378833005251801, by a Lucas certificate with generator 6. -/
theorem prime_173378833005251801 : Nat.Prime 173378833005251801 := by
  refine lucas_primality 173378833005251801 (6 : ZMod 173378833005251801) ?_ ?_
  · exact zmod_pow_eq_one 173378833005251801 6 (173378833005251801 - 1) (by norm_num) (by norm_num) (by decide)
  · intro q hq hdvd
    have hfac : 173378833005251801 - 1 = 2 ^ 3 * (5 ^ 2 * (2621 * (24809 * 13331831))) := by decide
    rw [hfac] at hdvd
    rcases (Nat.Prime.dvd_mul hq).mp hdvd with h | h
    · have hqe : q = 2 := (Nat.prime_dvd_prime_iff_eq hq (by norm_num)).mp (Nat.Prime.dvd_of_dvd_pow hq h)
      subst hqe
      exact zmod_pow_ne_one 173378833005251801 6 ((173378833005251801 - 1) / 2) 173378833005251800 (by norm_num) (by norm_num) (by decide) (by decide)
    · rcases (Nat.Prime.dvd_mul hq).mp h with h | h
      · have hqe : q = 5 := (Nat.prime_dvd_prime_iff_eq hq (by norm_num)).mp (Nat.Prime.dvd_of_dvd_pow hq h)
        subst hqe
        exact zmod_pow_ne_one 173378833005251801 6 ((173378833005251801 - 1) / 5) 152071994513768143 (by norm_num) (by norm_num) (by decide) (by decide)
      · rcases (Nat.Prime.dvd_mul hq).mp h with h | h
        · have hqe : q = 2621 := (Nat.prime_dvd_prime_iff_eq hq (by norm_num)).mp h
          subst hqe
          exact zmod_pow_ne_one 173378833005251801 6 ((173378833005251801 - 1) / 2621) 25743935490785551 (by norm_num) (by norm_num) (by decide) (by decide)
        · rcases (Nat.Prime.dvd_mul hq).mp h with h | h
          · have hqe : q = 24809 := (Nat.prime_dvd_prime_iff_eq hq (by norm_num)).mp h
            subst hqe
            exact zmod_pow_ne_one 173378833005251801 6 ((173378833005251801 - 1) / 24809) 5978649957832462 (by norm_num) (by norm_num) (by decide) (by decide)
          · have hqe : q = 13331831 := (Nat.prime_dvd_prime_iff_eq hq prime_13331831).mp h
            subst hqe
            exact zmod_pow_ne_one 173378833005251801 6 ((173378833005251801 - 1) / 13331831) 17954474104786666 (by norm_num) (by norm_num) (by decide) (by decide)

set_option maxRecDepth 100000 in
/-- Primality of 22149492674086928081353, by a Lucas certificate with generator 5. -/
theorem prime_22149492674086928081353 : Nat.Prime 22149492674086928081353 := by
  refine lucas_primality 22149492674086928081353 (5 : ZMod 22149492674086928081353) ?_ ?_
  · exact zmod_pow_eq_one 22149492674086928081353 5 (22149492674086928081353 - 1) (by norm_num) (by norm_num) (by decide)
  · intro q hq hdvd
    have hfac : 22149492674086928081353 - 1 = 2 ^ 3 * (3 * (5323 * 173378833005251801)) := by decide
    rw [hfac] at hdvd
    rcases (Nat.Prime.dvd_mul hq).mp hdvd with h | h
    · have hqe : q = 2 := (Nat.prime_dvd_prime_iff_eq hq (by norm_num)).mp (Nat.Prime.dvd_of_dvd_pow hq h)
      subst hqe
      exact zmod_pow_ne_one 22149492674086928081353 5 ((22149492674086928081353 - 1) / 2) 22149492674086928081352 (by norm_num) (by norm_num) (by decide) (by decide)
    · rcases (Nat.Prime.dvd_mul hq).mp h with h | h
      · have hqe : q = 3 := (Nat.prime_dvd_prime_iff_eq hq (by norm_num)).mp h
        subst hqe
        exact zmod_pow_ne_one 22149492674086928081353 5 ((22149492674086928081353 - 1) / 3) 10043889752229528935999 (by norm_num) (by norm_num) (by decide) (by decide)
      · rcases (Nat.Prime.dvd_mul hq).mp h with h | h
        · have hqe : q = 5323 := (Nat.prime_dvd_prime_iff_eq hq (by norm_num)).mp h
          subst hqe
          exact zmod_pow_ne_one 22149492674086928081353 5 ((22149492674086928081353 - 1) / 5323) 6446620476143922066636 (by norm_num) (by norm_num) (by decide) (by decide)
        · have hqe : q = 173378833005251801 := (Nat.prime_dvd_prime_iff_eq hq prime_173378833005251801).mp h
          subst hqe
          exact zmod_pow_ne_one 22149492674086928081353 5 ((22149492674086928081353 - 1) / 173378833005251801) 317195385910872261254 (by norm_num) (by norm_num) (by decide) (by decide)

set_option maxRecDepth 100000 in
/-- Primality of 132896956044521568488119, by a Lucas certificate with generator 6. -/
theorem prime_132896956044521568488119 : Nat.Prime 132896956044521568488119 := by
  refine lucas_primality 132896956044521568488119 (6 : ZMod 132896956044521568488119) ?_ ?_
  · exact zmod_pow_eq_one 132896956044521568488119 6 (132896956044521568488119 - 1) (by norm_num) (by norm_num) (by decide)
  · intro q hq hdvd
    have hfac : 132896956044521568488119 - 1 = 2 * (3 * 22149492674086928081353) := by decide
    rw [hfac] at hdvd
    rcases (Nat.Prime.dvd_mul hq).mp hdvd with h | h
    · have hqe : q = 2 := (Nat.prime_dvd_prime_iff_eq hq (by norm_num)).mp h
      subst hqe
      exact zmod_pow_ne_one 132896956044521568488119 6 ((132896956044521568488119 - 1) / 2) 132896956044521568488118 (by norm_num) (by norm_num) (by decide) (by decide)
    · rcases (Nat.Prime.dvd_mul hq).mp h with h | h
      · have hqe : q = 3 := (Nat.prime_dvd_prime_iff_eq hq (by norm_num)).mp h
        subst hqe
        exact zmod_pow_ne_one 132896956044521568488119 6 ((132896956044521568488119 - 1) / 3) 76725380987433565404982 (by norm_num) (by norm_num) (by decide) (by decide)
      · have hqe : q = 22149492674086928081353 := (Nat.prime_dvd_prime_iff_eq hq prime_22149492674086928081353).mp h
        subst hqe
        exact zmod_pow_ne_one 132896956044521568488119 6 ((132896956044521568488119 - 1) / 22149492674086928081353) 46656 (by norm_num) (by norm_num) (by decide) (by decide)

set_option maxRecDepth 100000 in
/-- Primality of 255515944373312847190720520512484175977, by a Lucas certificate with generator 3. -/
theorem prime_255515944373312847190720520512484175977 : Nat.Prime 255515944373312847190720520512484175977 := by
  refine lucas_primality 255515944373312847190720520512484175977 (3 : ZMod 255515944373312847190720520512484175977) ?_ ?_
  · exact zmod_pow_eq_one 255515944373312847190720520512484175977 3 (255515944373312847190720520512484175977 - 1) (by norm_num) (by norm_num) (by decide)
  · intro q hq hdvd
    have hfac : 255515944373312847190720520512484175977 - 1 = 2 ^ 3 * (7 ^ 2 * (11 * (1627 * (2657 * (4423 * (41201 * (96557 * (7240687 * 107590001)))))))) := by decide
    rw [hfac] at hdvd
    rcases (Nat.Prime.dvd_mul hq).mp hdvd with h | h
    · have hqe : q = 2 := (Nat.prime_dvd_prime_iff_eq hq (by norm_num)).mp (Nat.Prime.dvd_of_dvd_pow hq h)
      subst hqe
      exact zmod_pow_ne_one 255515944373312847190720520512484175977 3 ((255515944373312847190720520512484175977 - 1) / 2) 255515944373312847190720520512484175976 (by norm_num) (by norm_num) (by decide) (by decide)
    · rcases (Nat.Prime.dvd_mul hq).mp h with h | h
      · have hqe : q = 7 := (Nat.prime_dvd_prime_iff_eq hq (by norm_num)).mp (Nat.Prime.dvd_of_dvd_pow hq h)
        subst hqe
        exact zmod_pow_ne_one 255515944373312847190720520512484175977 3 ((255515944373312847190720520512484175977 - 1) / 7) 101630464857884484146913207008716355375 (by norm_num) (by norm_num) (by decide) (by decide)
      · rcases (Nat.Prime.dvd_mul hq).mp h with h | h
        · have hqe : q = 11 := (Nat.prime_dvd_prime_iff_eq hq (by norm_num)).mp h
          subst hqe
          exact zmod_pow_ne_one 255515944373312847190720520512484175977 3 ((255515944373312847190720520512484175977 - 1) / 11) 216514664320154426008163201710470464886 (by norm_num) (by norm_num) (by decide) (by decide)
        · rcases (Nat.Prime.dvd_mul hq).mp h with h | h
          · have hqe : q = 1627 := (Nat.prime_dvd_prime_iff_eq hq (by norm_num)).mp h
            subst hqe
            exact zmod_pow_ne_one 255515944373312847190720520512484175977 3 ((255515944373312847190720520512484175977 - 1) / 1627) 72473583126275438393254198129422586513 (by norm_num) (by norm_num) (by decide) (by decide)
          · rcases (Nat.Prime.dvd_mul hq).mp h with h | h
            · have hqe : q = 2657 := (Nat.prime_dvd_prime_iff_eq hq (by norm_num)).mp h
              subst hqe
              exact zmod_pow_ne_one 255515944373312847190720520512484175977 3 ((255515944373312847190720520512484175977 - 1) / 2657) 25264823290665569537380285172105507303 (by norm_num) (by norm_num) (by decide) (by decide)
            · rcases (Nat.Prime.dvd_mul hq).mp h with h | h
              · have hqe : q = 4423 := (Nat.prime_dvd_prime_iff_eq hq (by norm_num)).mp h
                subst hqe
                exact zmod_pow_ne_one 255515944373312847190720520512484175977 3 ((255515944373312847190720520512484175977 - 1) / 4423) 83399280779944061005050044694706920693 (by norm_num) (by norm_num) (by decide) (by decide)
              · rcases (Nat.Prime.dvd_mul hq).mp h with h | h
                · have hqe : q = 41201 := (Nat.prime_dvd_prime_iff_eq hq (by norm_num)).mp h
                  subst hqe
                  exact zmod_pow_ne_one 255515944373312847190720520512484175977 3 ((255515944373312847190720520512484175977 - 1) / 41201) 172827330636526207461984371528411705589 (by norm_num) (by norm_num) (by decide) (by decide)
                · rcases (Nat.Prime.dvd_mul hq).mp h with h | h
                  · have hqe : q = 96557 := (Nat.prime_dvd_prime_iff_eq hq (by norm_num)).mp h
                    subst hqe
                    exact zmod_pow_ne_one 255515944373312847190720520512484175977 3 ((255515944373312847190720520512484175977 - 1) / 96557) 255259905881023646761568249610326048823 (by norm_num) (by norm_num) (by decide) (by decide)
                  · rcases (Nat.Prime.dvd_mul hq).mp h with h | h
                    · have hqe : q = 7240687 := (Nat.prime_dvd_prime_iff_eq hq prime_7240687).mp h
                      subst hqe
                      exact zmod_pow_ne_one 255515944373312847190720520512484175977 3 ((255515944373312847190720520512484175977 - 1) / 7240687) 31043399383638056505926561103262574803 (by norm_num) (by norm_num) (by decide) (by decide)
                    · have hqe : q = 107590001 := (Nat.prime_dvd_prime_iff_eq hq prime_107590001).mp h
                      subst hqe
                      exact zmod_pow_ne_one 255515944373312847190720520512484175977 3 ((255515944373312847190720520512484175977 - 1) / 107590001) 18335160587089267704563076742628378053 (by norm_num) (by norm_num) (by decide) (by decide)

set_option maxRecDepth 100000 in
/-- Primality of 205115282021455665897114700593932402728804164701536103180137503955397371, by a Lucas certificate with generator 10. -/
theorem prime_205115282021455665897114700593932402728804164701536103180137503955397371 : Nat.Prime 205115282021455665897114700593932402728804164701536103180137503955397371 := by
  refine lucas_primality 205115282021455665897114700593932402728804164701536103180137503955397371 (10 : ZMod 205115282021455665897114700593932402728804164701536103180137503955397371) ?_ ?_
  · exact zmod_pow_eq_one 205115282021455665897114700593932402728804164701536103180137503955397371 10 (205115282021455665897114700593932402728804164701536103180137503955397371 - 1) (by norm_num) (by norm_num) (by decide)
  · intro q hq hdvd
    have hfac : 205115282021455665897114700593932402728804164701536103180137503955397371 - 1 = 2 * (3 * (5 * (29 ^ 2 * (31 * (7723 * (132896956044521568488119 * 255515944373312847190720520512484175977)))))) := by decide
    rw [hfac] at hdvd
    rcases (Nat.Prime.dvd_mul hq).mp hdvd with h | h
    · have hqe : q = 2 := (Nat.prime_dvd_prime_iff_eq hq (by norm_num)).mp h
      subst hqe
      exact zmod_pow_ne_one 205115282021455665897114700593932402728804164701536103180137503955397371 10 ((205115282021455665897114700593932402728804164701536103180137503955397371 - 1) / 2) 205115282021455665897114700593932402728804164701536103180137503955397370 (by norm_num) (by norm_num) (by decide) (by decide)
    · rcases (Nat.Prime.dvd_mul hq).mp h with h | h
      · have hqe : q = 3 := (Nat.prime_dvd_prime_iff_eq hq (by norm_num)).mp h
        subst hqe
        exact zmod_pow_ne_one 205115282021455665897114700593932402728804164701536103180137503955397371 10 ((205115282021455665897114700593932402728804164701536103180137503955397371 - 1) / 3) 178616112238072933217230078226700686412819640559154366246118991325153614 (by norm_num) (by norm_num) (by decide) (by decide)
      · rcases (Nat.Prime.dvd_mul hq).mp h with h | h
        · have hqe : q = 5 := (Nat.prime_dvd_prime_iff_eq hq (by norm_num)).mp h
          subst hqe
          exact zmod_pow_ne_one 205115282021455665897114700593932402728804164701536103180137503955397371 10 ((205115282021455665897114700593932402728804164701536103180137503955397371 - 1) / 5) 148667663605783182964533161827581554934625546150551877457291286907751879 (by norm_num) (by norm_num) (by decide) (by decide)
        · rcases (Nat.Prime.dvd_mul hq).mp h with h | h
          · have hqe : q = 29 := (Nat.prime_dvd_prime_iff_eq hq (by norm_num)).mp (Nat.Prime.dvd_of_dvd_pow hq h)
            subst hqe
            exact zmod_pow_ne_one 205115282021455665897114700593932402728804164701536103180137503955397371 10 ((205115282021455665897114700593932402728804164701536103180137503955397371 - 1) / 29) 90719238424619861502781386762050866835022444605988461034414193158222234 (by norm_num) (by norm_num) (by decide) (by decide)
          · rcases (Nat.Prime.dvd_mul hq).mp h with h | h
            · have hqe : q = 31 := (Nat.prime_dvd_prime_iff_eq hq (by norm_num)).mp h
              subst hqe
              exact zmod_pow_ne_one 205115282021455665897114700593932402728804164701536103180137503955397371 10 ((205115282021455665897114700593932402728804164701536103180137503955397371 - 1) / 31) 178914599646525377090000213924526954283063588893967770896141456545640969 (by norm_num) (by norm_num) (by decide) (by decide)
            · rcases (Nat.Prime.dvd_mul hq).mp h with h | h
              · have hqe : q = 7723 := (Nat.prime_dvd_prime_iff_eq hq (by norm_num)).mp h
                subst hqe
                exact zmod_pow_ne_one 205115282021455665897114700593932402728804164701536103180137503955397371 10 ((205115282021455665897114700593932402728804164701536103180137503955397371 - 1) / 7723) 123665784261542600597161422878187596862401757469595512553658861111742805 (by norm_num) (by norm_num) (by decide) (by decide)
              · rcases (Nat.Prime.dvd_mul hq).mp h with h | h
                · have hqe : q = 132896956044521568488119 := (Nat.prime_dvd_prime_iff_eq hq prime_132896956044521568488119).mp h
                  subst hqe
                  exact zmod_pow_ne_one 205115282021455665897114700593932402728804164701536103180137503955397371 10 ((205115282021455665897114700593932402728804164701536103180137503955397371 - 1) / 132896956044521568488119) 23464812984708083251961214877810561828785050182618072726888556255391050 (by norm_num) (by norm_num) (by decide) (by decide)
                · have hqe : q = 255515944373312847190720520512484175977 := (Nat.prime_dvd_prime_iff_eq hq prime_255515944373312847190720520512484175977).mp h
                  subst hqe
                  exact zmod_pow_ne_one 205115282021455665897114700593932402728804164701536103180137503955397371 10 ((205115282021455665897114700593932402728804164701536103180137503955397371 - 1) / 255515944373312847190720520512484175977) 178266113035923784558209165568976194333480695760850831337861960477148809 (by norm_num) (by norm_num) (by decide) (by decide)

set_option maxRecDepth 100000 in
/-- Primality of 115792089237316195423570985008687907853269984665640564039457584007908834671663, by a Lucas certificate with generator 3. -/
theorem prime_115792089237316195423570985008687907853269984665640564039457584007908834671663 : Nat.Prime 115792089237316195423570985008687907853269984665640564039457584007908834671663 := by
  refine lucas_primality 115792089237316195423570985008687907853269984665640564039457584007908834671663 (3 : ZMod 115792089237316195423570985008687907853269984665640564039457584007908834671663) ?_ ?_
  · exact zmod_pow_eq_one 115792089237316195423570985008687907853269984665640564039457584007908834671663 3 (115792089237316195423570985008687907853269984665640564039457584007908834671663 - 1) (by norm_num) (by norm_num) (by decide)
  · intro q hq hdvd
    have hfac : 115792089237316195423570985008687907853269984665640564039457584007908834671663 - 1 = 2 * (3 * (7 * (13441 * 205115282021455665897114700593932402728804164701536103180137503955397371))) := by decide
    rw [hfac] at hdvd
    rcases (Nat.Prime.dvd_mul hq).mp hdvd with h | h
    · have hqe : q = 2 := (Nat.prime_dvd_prime_iff_eq hq (by norm_num)).mp h
      subst hqe
      exact zmod_pow_ne_one 115792089237316195423570985008687907853269984665640564039457584007908834671663 3 ((115792089237316195423570985008687907853269984665640564039457584007908834671663 - 1) / 2) 115792089237316195423570985008687907853269984665640564039457584007908834671662 (by norm_num) (by norm_num) (by decide) (by decide)
    · rcases (Nat.Prime.dvd_mul hq).mp h with h | h
      · have hqe : q = 3 := (Nat.prime_dvd_prime_iff_eq hq (by norm_num)).mp h
        subst hqe
        exact zmod_pow_ne_one 115792089237316195423570985008687907853269984665640564039457584007908834671663 3 ((115792089237316195423570985008687907853269984665640564039457584007908834671663 - 1) / 3) 60197513588986302554485582024885075108884032450952339817679072026166228089408 (by norm_num) (by norm_num) (by decide) (by decide)
      · rcases (Nat.Prime.dvd_mul hq).mp h with h | h
        · have hqe : q = 7 := (Nat.prime_dvd_prime_iff_eq hq (by norm_num)).mp h
          subst hqe
          exact zmod_pow_ne_one 115792089237316195423570985008687907853269984665640564039457584007908834671663 3 ((115792089237316195423570985008687907853269984665640564039457584007908834671663 - 1) / 7) 73577166854750709961935200508434814177540983658115200205126683779095497532107 (by norm_num) (by norm_num) (by decide) (by decide)
        · rcases (Nat.Prime.dvd_mul hq).mp h with h | h
          · have hqe : q = 13441 := (Nat.prime_dvd_prime_iff_eq hq (by norm_num)).mp h
            subst hqe
            exact zmod_pow_ne_one 115792089237316195423570985008687907853269984665640564039457584007908834671663 3 ((115792089237316195423570985008687907853269984665640564039457584007908834671663 - 1) / 13441) 47069427835566023893842355796053529714200560266804286213968496489326012498751 (by norm_num) (by norm_num) (by decide) (by decide)
          · have hqe : q = 205115282021455665897114700593932402728804164701536103180137503955397371 := (Nat.prime_dvd_prime_iff_eq hq prime_205115282021455665897114700593932402728804164701536103180137503955397371).mp h
            subst hqe
            exact zmod_pow_ne_one 115792089237316195423570985008687907853269984665640564039457584007908834671663 3 ((115792089237316195423570985008687907853269984665640564039457584007908834671663 - 1) / 205115282021455665897114700593932402728804164701536103180137503955397371) 15008666919421193757556023654256545850754027412553468855825889464239117716646 (by norm_num) (by norm_num) (by decide) (by decide)


theorem hexEncode_take_two (b : Nat) (rest : List Nat) :
    (hexEncode (b :: rest)).data.take 2 = [hexDigitChar (b / 16 % 16), hexDigitChar (b % 16)] :=
  rfl

theorem ecdsaSign_ok_isBytes {dg pk bs : List Nat} (h : ecdsaSign dg pk = .ok bs) :
    IsBytes bs := by
  unfold ecdsaSign at h
  split at h
  · exact absurd h (by simp)
  · split at h
    · exact absurd h (by simp)
    · split at h
      · exact absurd h (by simp)
      · split at h
        · exact absurd h (by simp)
        · simp only [Except.ok.injEq] at h
          subst h
          exact isBytes_append (natToBytesBE_isBytes _ _) (natToBytesBE_isBytes _ _)

theorem publicKeyCreate_ok {bs out : List Nat} (h : publicKeyCreate bs = .ok out) :
    bs.length = 32 ∧ privateKeyVerify bs = true := by
  unfold publicKeyCreate at h
  split at h
  · exact absurd h (by simp)
  · split at h
    · exact absurd h (by simp)
    · rename_i h1 h2
      refine ⟨by omega, by revert h2; cases privateKeyVerify bs <;> simp⟩

/-! ### The mathematical reading of the modular arithmetic -/

theorem secpN_prime : Nat.Prime secpN :=
  prime_115792089237316195423570985008687907852837564279074904382605163141518161494337

theorem secpP_prime : Nat.Prime secpP :=
  prime_115792089237316195423570985008687907853269984665640564039457584007908834671663

instance secpP_fact : Fact (Nat.Prime secpP) := ⟨secpP_prime⟩

theorem natCast_sub_eq {m a : Nat} (h : a ≤ m) :
    ((m - a : Nat) : ZMod m) = -(a : ZMod m) := by
  rw [Nat.cast_sub h, ZMod.natCast_self, zero_sub]

theorem natCast_ne_zero_of {m a : Nat} (h1 : 0 < a) (h2 : a < m) :
    (a : ZMod m) ≠ 0 := by
  rw [Ne, ZMod.natCast_zmod_eq_zero_iff_dvd]
  intro hdvd
  have := Nat.le_of_dvd h1 hdvd
  omega

theorem natCast_inj_of_lt {m a b : Nat} (ha : a < m) (hb : b < m) :
    ((a : ZMod m) = (b : ZMod m)) ↔ a = b := by
  rw [ZMod.natCast_eq_natCast_iff', Nat.mod_eq_of_lt ha, Nat.mod_eq_of_lt hb]

theorem invModP_cast [hp : Fact (Nat.Prime secpP)] {a : Nat} (ha : (a : ZMod secpP) ≠ 0) :
    ((invModP a : Nat) : ZMod secpP) = (a : ZMod secpP)⁻¹ := by
  unfold invModP
  rw [powmod_eq hp.out.one_lt a _ (by norm_num [secpP]), ZMod.natCast_mod, Nat.cast_pow]
  have h1 : (a : ZMod secpP) ^ (secpP - 2) * a = 1 := by
    rw [← pow_succ, show secpP - 2 + 1 = secpP - 1 by norm_num [secpP]]
    exact ZMod.pow_card_sub_one_eq_one ha
  exact eq_inv_of_mul_eq_one_left h1

theorem invModN_cast {a : Nat} (ha : (a : ZMod secpN) ≠ 0) :
    ((invModN a : Nat) : ZMod secpN) = (a : ZMod secpN)⁻¹ := by
  haveI := Fact.mk secpN_prime
  unfold invModN
  rw [powmod_eq secpN_prime.one_lt a _ (by norm_num [secpN]), ZMod.natCast_mod, Nat.cast_pow]
  have h1 : (a : ZMod secpN) ^ (secpN - 2) * a = 1 := by
    rw [← pow_succ, show secpN - 2 + 1 = secpN - 1 by norm_num [secpN]]
    exact ZMod.pow_card_sub_one_eq_one ha
  exact eq_inv_of_mul_eq_one_left h1

theorem secpW_equation_iff (x y : ZMod secpP) :
    secpW.Equation x y ↔ y ^ 2 = x ^ 3 + 7 := by
  rw [WeierstrassCurve.Affine.equation_iff]
  simp [secpW]

theorem secpW_negY (x y : ZMod secpP) : secpW.negY x y = -y := by
  simp [secpW, WeierstrassCurve.Affine.negY]

/-- An affine pair with reduced coordinates satisfying the curve equation
over the naturals satisfies the mathematical curve equation. -/
theorem secpW_equation_of_nat {x y : Nat}
    (h : y * y % secpP = (x * x * x + 7) % secpP) :
    secpW.Equation (x : ZMod secpP) (y : ZMod secpP) := by
  rw [secpW_equation_iff]
  have : ((y * y : Nat) : ZMod secpP) = ((x * x * x + 7 : Nat) : ZMod secpP) := by
    rw [ZMod.natCast_eq_natCast_iff', h]
  push_cast at this
  rw [pow_two, pow_succ, pow_two]
  push_cast
  linear_combination this

/-- Every point of secp256k1 is nonsingular (the curve has nonzero
discriminant; concretely, a point with 2y = 0 and 3x^2 = 0 would force
x = y = 0, which does not satisfy the equation). -/
theorem secpW_nonsingular [Fact (Nat.Prime secpP)] {x y : ZMod secpP}
    (h : secpW.Equation x y) : secpW.Nonsingular x y := by
  rw [WeierstrassCurve.Affine.nonsingular_iff]
  refine ⟨h, ?_⟩
  by_contra hcon
  push_neg at hcon
  obtain ⟨h1, h2⟩ := hcon
  simp only [secpW] at h1 h2
  have hy : y = 0 := by
    have h2y : (2 : ZMod secpP) * y = 0 := by linear_combination h2
    rcases mul_eq_zero.mp h2y with h | h
    · exact absurd h (by
        have : ((2 : Nat) : ZMod secpP) ≠ 0 := natCast_ne_zero_of (by omega) (by norm_num [secpP])
        simpa using this)
    · exact h
  have hx : x = 0 := by
    have h3 : (3 : ZMod secpP) * x ^ 2 = 0 := by linear_combination -h1
    have h3ne : ((3 : Nat) : ZMod secpP) ≠ 0 := natCast_ne_zero_of (by omega) (by norm_num [secpP])
    rcases mul_eq_zero.mp h3 with h | h
    · exact absurd h (by simpa using h3ne)
    · exact pow_eq_zero_iff (by omega) |>.mp h
  rw [secpW_equation_iff, hx, hy] at h
  have h7 : ((7 : Nat) : ZMod secpP) ≠ 0 := natCast_ne_zero_of (by omega) (by norm_num [secpP])
  simp at h
  exact h7 (by push_cast; linear_combination -h)

/-- The base point coordinates are reduced and satisfy the curve
equation. -/
theorem secpG_onCurve :
    secpGx < secpP ∧ secpGy < secpP ∧
      secpGy * secpGy % secpP = (secpGx * secpGx * secpGx + 7) % secpP := by
  refine ⟨by norm_num [secpGx, secpP], by norm_num [secpGy, secpP], by norm_num [secpGx, secpGy, secpP]⟩

/-- The base point, as a nonsingular point of the mathematical curve. -/
theorem secpG_nonsingular [Fact (Nat.Prime secpP)] :
    secpW.Nonsingular (secpGx : ZMod secpP) (secpGy : ZMod secpP) :=
  secpW_nonsingular (secpW_equation_of_nat secpG_onCurve.2.2)

/-! ### The computational point addition implements the group law -/

theorem secpP_pos : 0 < secpP := by norm_num [secpP]

theorem pAddX_cast {x1 x2 : Nat} (l : Nat) (hx1 : x1 ≤ secpP) (hx2 : x2 ≤ secpP) :
    (((l * l + (secpP - x1) + (secpP - x2)) % secpP : Nat) : ZMod secpP)
      = (l : ZMod secpP) ^ 2 - (x1 : ZMod secpP) - (x2 : ZMod secpP) := by
  rw [ZMod.natCast_mod, Nat.cast_add, Nat.cast_add, Nat.cast_mul,
    natCast_sub_eq hx1, natCast_sub_eq hx2]
  ring

theorem pAddY_cast {x3 y1 : Nat} (l x1 : Nat) (hx3 : x3 ≤ secpP) (hy1 : y1 ≤ secpP) :
    (((l * ((x1 + (secpP - x3)) % secpP) + (secpP - y1)) % secpP : Nat) : ZMod secpP)
      = (l : ZMod secpP) * ((x1 : ZMod secpP) - (x3 : ZMod secpP)) - (y1 : ZMod secpP) := by
  rw [ZMod.natCast_mod, Nat.cast_add, Nat.cast_mul, ZMod.natCast_mod, Nat.cast_add,
    natCast_sub_eq hx3, natCast_sub_eq hy1]
  ring

theorem slope_secant_cast [Fact (Nat.Prime secpP)] {x1 x2 y1 y2 : Nat}
    (hx2 : x2 ≤ secpP) (hy2 : y2 ≤ secpP)
    (hne : (x1 : ZMod secpP) ≠ (x2 : ZMod secpP)) :
    (((y1 + (secpP - y2)) % secpP * invModP ((x1 + (secpP - x2)) % secpP) % secpP : Nat) :
        ZMod secpP)
      = ((y1 : ZMod secpP) - (y2 : ZMod secpP)) / ((x1 : ZMod secpP) - (x2 : ZMod secpP)) := by
  have hden : (((x1 + (secpP - x2)) % secpP : Nat) : ZMod secpP)
      = (x1 : ZMod secpP) - (x2 : ZMod secpP) := by
    rw [ZMod.natCast_mod, Nat.cast_add, natCast_sub_eq hx2]
    ring
  have hdne : (((x1 + (secpP - x2)) % secpP : Nat) : ZMod secpP) ≠ 0 := by
    rw [hden]
    exact sub_ne_zero_of_ne hne
  rw [ZMod.natCast_mod, Nat.cast_mul, ZMod.natCast_mod, Nat.cast_add, natCast_sub_eq hy2,
    invModP_cast hdne, hden, div_eq_mul_inv]
  ring

theorem slope_tangent_cast [Fact (Nat.Prime secpP)] {y1 : Nat} (x1 : Nat)
    (hne : (2 : ZMod secpP) * (y1 : ZMod secpP) ≠ 0) :
    ((3 * x1 * x1 % secpP * invModP (2 * y1 % secpP) % secpP : Nat) : ZMod secpP)
      = 3 * (x1 : ZMod secpP) ^ 2 / (2 * (y1 : ZMod secpP)) := by
  have hden : ((2 * y1 % secpP : Nat) : ZMod secpP) = 2 * (y1 : ZMod secpP) := by
    rw [ZMod.natCast_mod]
    push_cast
    ring
  have hdne : ((2 * y1 % secpP : Nat) : ZMod secpP) ≠ 0 := by
    rw [hden]
    exact hne
  rw [ZMod.natCast_mod, Nat.cast_mul, ZMod.natCast_mod, invModP_cast hdne, hden,
    div_eq_mul_inv]
  push_cast
  ring

/-- The computational point addition tracks the group law of the
mathematical curve on representatives. -/
theorem pAdd_repr [Fact (Nat.Prime secpP)] {c1 c2 : CPoint} {P1 P2 : secpW.Point}
    (h1 : ReprPt c1 P1) (h2 : ReprPt c2 P2) : ReprPt (pAdd c1 c2) (P1 + P2) := by
  match c1, P1, h1 with
  | none, .zero, _ =>
    have hnone : pAdd none c2 = c2 := by cases c2 <;> rfl
    rw [hnone, WeierstrassCurve.Affine.Point.zero_def, zero_add]
    exact h2
  | none, .some hns, h1 => exact h1.elim
  | some (x1, y1), .zero, h1 => exact h1.elim
  | some (x1, y1), @WeierstrassCurve.Affine.Point.some _ _ _ x1' y1' hns1, h1 =>
    match c2, P2, h2 with
    | none, .zero, _ =>
      rw [show pAdd (some (x1, y1)) none = some (x1, y1) from rfl,
        WeierstrassCurve.Affine.Point.zero_def, add_zero]
      exact h1
    | none, .some hns, h2 => exact h2.elim
    | some (x2, y2), .zero, h2 => exact h2.elim
    | some (x2, y2), @WeierstrassCurve.Affine.Point.some _ _ _ x2' y2' hns2, h2 =>
      obtain ⟨hx1lt, hy1lt, hx1c, hy1c⟩ := h1
      obtain ⟨hx2lt, hy2lt, hx2c, hy2c⟩ := h2
      by_cases hxx : x1 = x2
      · have hxc : x1' = x2' := by rw [← hx1c, ← hx2c, hxx]
        by_cases hyy : (y1 + y2) % secpP = 0
        · have hyc : y1' = secpW.negY x2' y2' := by
            rw [secpW_negY]
            have hz : ((y1 + y2 : Nat) : ZMod secpP) = 0 := by
              rw [← ZMod.natCast_mod (y1 + y2) secpP, hyy, Nat.cast_zero]
            push_cast at hz
            rw [hy1c, hy2c] at hz
            linear_combination hz
          rw [WeierstrassCurve.Affine.Point.add_of_Y_eq hxc hyc]
          simp only [pAdd]
          rw [if_pos hxx, if_pos hyy]
          trivial
        · have hsum : y1' + y2' ≠ 0 := by
            intro hcon
            apply hyy
            have hz : ((y1 + y2 : Nat) : ZMod secpP) = 0 := by
              push_cast
              rw [hy1c, hy2c]
              exact hcon
            rw [ZMod.natCast_zmod_eq_zero_iff_dvd] at hz
            exact Nat.mod_eq_zero_of_dvd hz
          have hyne : y1' ≠ secpW.negY x2' y2' := by
            rw [secpW_negY]
            intro hcon
            apply hsum
            rw [hcon]
            ring
          rw [WeierstrassCurve.Affine.Point.add_of_Y_ne hyne]
          have hy21 : y1' = y2' :=
            WeierstrassCurve.Affine.Y_eq_of_Y_ne hns1.1 hns2.1 hxc hyne
          have h2y : (2 : ZMod secpP) * (y1 : ZMod secpP) ≠ 0 := by
            rw [hy1c]
            intro hcon
            apply hsum
            rw [← hy21]
            linear_combination hcon
          have hy1ne : (y1 : ZMod secpP) ≠ 0 := by
            intro hcon
            apply h2y
            rw [hcon]
            ring
          have hslope : secpW.slope x1' x2' y1' y2'
              = ((3 * x1 * x1 % secpP * invModP (2 * y1 % secpP) % secpP : Nat) :
                  ZMod secpP) := by
            rw [WeierstrassCurve.Affine.slope_of_Y_ne hxc hyne,
              slope_tangent_cast x1 h2y, secpW_negY]
            simp only [secpW]
            rw [← hx1c, ← hy1c]
            have h2ne : (2 : ZMod secpP) ≠ 0 := by
              have := natCast_ne_zero_of (m := secpP) (a := 2) (by omega) (by norm_num [secpP])
              simpa using this
            field_simp [hy1ne, h2ne]
            rw [show (y1 : ZMod secpP) + (y1 : ZMod secpP) = 2 * (y1 : ZMod secpP) by ring,
              mul_div_assoc, div_self h2y, mul_one]
          simp only [pAdd]
          rw [if_pos hxx, if_neg hyy]
          refine ⟨Nat.mod_lt _ secpP_pos, Nat.mod_lt _ secpP_pos, ?_, ?_⟩
          · rw [pAddX_cast _ (le_of_lt hx1lt) (le_of_lt hx2lt),
              WeierstrassCurve.Affine.addX, hslope]
            simp only [secpW]
            rw [hx1c, hx2c]
            ring
          · rw [pAddY_cast _ _ (le_of_lt (Nat.mod_lt _ secpP_pos)) (le_of_lt hy1lt),
              WeierstrassCurve.Affine.addY, WeierstrassCurve.Affine.negAddY,
              WeierstrassCurve.Affine.addX, secpW_negY,
              pAddX_cast _ (le_of_lt hx1lt) (le_of_lt hx2lt), hslope]
            simp only [secpW]
            rw [hx1c, hy1c, hx2c]
            ring
      · have hxc : x1' ≠ x2' := by
          rw [← hx1c, ← hx2c]
          exact fun hcon => hxx ((natCast_inj_of_lt hx1lt hx2lt).mp hcon)
        rw [WeierstrassCurve.Affine.Point.add_of_X_ne hxc]
        have hslope : secpW.slope x1' x2' y1' y2'
            = (((y1 + (secpP - y2)) % secpP * invModP ((x1 + (secpP - x2)) % secpP) %
                secpP : Nat) : ZMod secpP) := by
          rw [WeierstrassCurve.Affine.slope_of_X_ne hxc,
            slope_secant_cast (le_of_lt hx2lt) (le_of_lt hy2lt) (by rw [hx1c, hx2c]; exact hxc)]
          rw [← hx1c, ← hx2c, ← hy1c, ← hy2c]
        simp only [pAdd]
        rw [if_neg hxx]
        refine ⟨Nat.mod_lt _ secpP_pos, Nat.mod_lt _ secpP_pos, ?_, ?_⟩
        · rw [pAddX_cast _ (le_of_lt hx1lt) (le_of_lt hx2lt),
            WeierstrassCurve.Affine.addX, hslope]
          simp only [secpW]
          rw [hx1c, hx2c]
          ring
        · rw [pAddY_cast _ _ (le_of_lt (Nat.mod_lt _ secpP_pos)) (le_of_lt hy1lt),
            WeierstrassCurve.Affine.addY, WeierstrassCurve.Affine.negAddY,
            WeierstrassCurve.Affine.addX, secpW_negY,
            pAddX_cast _ (le_of_lt hx1lt) (le_of_lt hx2lt), hslope]
          simp only [secpW]
          rw [hx1c, hy1c, hx2c]
          ring

theorem scmulAux_repr [Fact (Nat.Prime secpP)] :
    ∀ (f k : Nat) {base acc : CPoint} {B A : secpW.Point},
      ReprPt base B → ReprPt acc A → k < 2 ^ f →
      ReprPt (scmulAux f k base acc) (A + k • B) := by
  intro f
  induction f with
  | zero =>
    intro k base acc B A hB hA hk
    interval_cases k
    simp only [scmulAux, zero_nsmul, add_zero]
    exact hA
  | succ f ih =>
    intro k base acc B A hB hA hk
    by_cases hk0 : k = 0
    · subst hk0
      simp only [scmulAux, if_pos, zero_nsmul, add_zero]
      exact hA
    · rw [show scmulAux (f + 1) k base acc
          = scmulAux f (k / 2) (pAdd base base)
              (if k % 2 = 1 then pAdd acc base else acc) by
        simp only [scmulAux, if_neg hk0]]
      have hBB : ReprPt (pAdd base base) (B + B) := pAdd_repr hB hB
      have hA2 : ReprPt (if k % 2 = 1 then pAdd acc base else acc) (A + (k % 2) • B) := by
        by_cases hodd : k % 2 = 1
        · rw [if_pos hodd, hodd, one_nsmul]
          exact pAdd_repr hA hB
        · rw [if_neg hodd, show k % 2 = 0 by omega, zero_nsmul, add_zero]
          exact hA
      have hlt : k / 2 < 2 ^ f := by
        have h2 : 2 ^ (f + 1) = 2 * 2 ^ f := by ring
        omega
      have hrec := ih (k / 2) hBB hA2 hlt
      have halg : A + (k % 2) • B + (k / 2) • (B + B) = A + k • B := by
        have hk' : k % 2 + (k / 2 + k / 2) = k := by omega
        calc A + (k % 2) • B + (k / 2) • (B + B)
            = A + (k % 2 + (k / 2 + k / 2)) • B := by
              rw [nsmul_add, add_nsmul, add_nsmul]
              abel
          _ = A + k • B := by rw [hk']
      rw [← halg]
      exact hrec

theorem scmul_repr [Fact (Nat.Prime secpP)] {c : CPoint} {B : secpW.Point}
    (h : ReprPt c B) (k : Nat) (hk : k < 2 ^ 300) :
    ReprPt (scmul k c) (k • B) := by
  have hz : ReprPt none (0 : secpW.Point) := trivial
  have := scmulAux_repr 300 k h hz hk
  rw [zero_add] at this
  exact this

theorem eq_zero_of_reprPt_none {P : secpW.Point} (h : ReprPt none P) : P = 0 := by
  cases P with
  | zero => rfl
  | some hns => exact h.elim

theorem reprPt_none_eq_zero_of {c : CPoint} {P : secpW.Point}
    (h : ReprPt c P) (hc : c = none) : P = 0 :=
  eq_zero_of_reprPt_none (hc ▸ h)

/-- The base point as a represented point. -/
theorem secpG_repr [Fact (Nat.Prime secpP)] :
    ReprPt secpG (WeierstrassCurve.Affine.Point.some secpG_nonsingular) :=
  ⟨secpG_onCurve.1, secpG_onCurve.2.1, rfl, rfl⟩

set_option maxRecDepth 100000 in
set_option maxHeartbeats 8000000 in
/-- The group order times the base point is the point at infinity, by
direct computation of the scalar multiplication. -/
theorem scmul_N_G : scmul secpN secpG = none := by decide

theorem nsmul_eq_zero_of_scmul_none [Fact (Nat.Prime secpP)] (k : Nat) (hk : k < 2 ^ 300)
    (hnone : scmul k secpG = none) :
    k • (WeierstrassCurve.Affine.Point.some secpG_nonsingular) = 0 :=
  reprPt_none_eq_zero_of (scmul_repr secpG_repr k hk) hnone

theorem nsmul_N_G [Fact (Nat.Prime secpP)] :
    secpN • (WeierstrassCurve.Affine.Point.some secpG_nonsingular) = 0 :=
  nsmul_eq_zero_of_scmul_none secpN (by norm_num [secpN]) scmul_N_G

/-- The base point has order exactly the group order, since the group
order is prime and the base point is not the identity. -/
theorem addOrderOf_G [Fact (Nat.Prime secpP)] :
    addOrderOf (WeierstrassCurve.Affine.Point.some secpG_nonsingular) = secpN := by
  haveI := Fact.mk secpN_prime
  exact addOrderOf_eq_prime nsmul_N_G
    (WeierstrassCurve.Affine.Point.some_ne_zero secpG_nonsingular)

theorem nsmul_G_eq_zero_iff [Fact (Nat.Prime secpP)] (k : Nat) :
    k • (WeierstrassCurve.Affine.Point.some secpG_nonsingular) = 0 ↔ secpN ∣ k := by
  rw [← addOrderOf_G]
  exact addOrderOf_dvd_iff_nsmul_eq_zero.symm

theorem nsmul_G_mod [Fact (Nat.Prime secpP)] (k : Nat) :
    (k % secpN) • (WeierstrassCurve.Affine.Point.some secpG_nonsingular)
      = k • (WeierstrassCurve.Affine.Point.some secpG_nonsingular) := by
  conv_rhs => rw [show k = secpN * (k / secpN) + k % secpN from (Nat.div_add_mod k secpN).symm]
  rw [add_nsmul, mul_nsmul, nsmul_N_G, nsmul_zero, zero_add]

theorem nsmul_G_inj [Fact (Nat.Prime secpP)] {a b : Nat} (ha : a < secpN) (hb : b < secpN)
    (h : a • (WeierstrassCurve.Affine.Point.some secpG_nonsingular)
      = b • (WeierstrassCurve.Affine.Point.some secpG_nonsingular)) : a = b := by
  have key : ∀ {u v : Nat}, u ≤ v → v < secpN →
      u • (WeierstrassCurve.Affine.Point.some secpG_nonsingular)
        = v • (WeierstrassCurve.Affine.Point.some secpG_nonsingular) → u = v := by
    intro u v huv hv he
    have h1 : (v - u) • (WeierstrassCurve.Affine.Point.some secpG_nonsingular)
        + u • (WeierstrassCurve.Affine.Point.some secpG_nonsingular)
        = v • (WeierstrassCurve.Affine.Point.some secpG_nonsingular) := by
      rw [← add_nsmul, Nat.sub_add_cancel huv]
    rw [he, add_left_eq_self] at h1
    have hdvd := (nsmul_G_eq_zero_iff (v - u)).mp h1
    have := Nat.eq_zero_of_dvd_of_lt hdvd
    omega
  rcases le_total a b with hab | hab
  · exact key hab hb h
  · exact (key hab ha h.symm).symm

/-! ### Byte encodings of field and scalar values -/

theorem bytesToNatBE_snoc (xs : List Nat) (b : Nat) :
    bytesToNatBE (xs ++ [b]) = bytesToNatBE xs * 256 + b := by
  simp [bytesToNatBE, List.foldl_append]

theorem bytesToNatBE_natToBytesBE (k : Nat) :
    ∀ v : Nat, v < 256 ^ k → bytesToNatBE (natToBytesBE k v) = v := by
  induction k with
  | zero =>
    intro v hv
    interval_cases v
    rfl
  | succ k ih =>
    intro v hv
    have hdiv : v / 256 < 256 ^ k := by
      rw [Nat.div_lt_iff_lt_mul (by omega)]
      calc v < 256 ^ (k + 1) := hv
        _ = 256 ^ k * 256 := by rw [pow_succ]
    rw [natToBytesBE, bytesToNatBE_snoc, ih (v / 256) hdiv]
    omega

/-! ### Decompression inverts compression on curve points -/

theorem natParity_opposite {y : Nat} (hy : 0 < y) (hylt : y < secpP) :
    (secpP - y) % 2 ≠ y % 2 := by
  have hodd : secpP % 2 = 1 := by norm_num [secpP]
  omega

/-- The square root step of decompression: in the base field, where the
modulus is 3 mod 4, the ((p+1)/4)-th power of a square recovers a square
root of it. -/
theorem sqrt_of_sq [Fact (Nat.Prime secpP)] (yv : ZMod secpP) :
    (yv ^ 2) ^ ((secpP + 1) / 4) = yv ∨ (yv ^ 2) ^ ((secpP + 1) / 4) = -yv := by
  by_cases hy : yv = 0
  · left
    rw [hy, show (0 : ZMod secpP) ^ 2 = 0 by ring]
    exact zero_pow (by norm_num [secpP])
  · have key : ((yv ^ 2) ^ ((secpP + 1) / 4)) ^ 2 = yv ^ 2 := by
      rw [← pow_mul, ← pow_mul,
        show 2 * ((secpP + 1) / 4 * 2) = secpP - 1 + 2 by norm_num [secpP],
        pow_add, ZMod.pow_card_sub_one_eq_one hy, one_mul]
    have hfac : ((yv ^ 2) ^ ((secpP + 1) / 4) - yv) *
        ((yv ^ 2) ^ ((secpP + 1) / 4) + yv) = 0 := by
      linear_combination key
    rcases mul_eq_zero.mp hfac with h | h
    · left
      exact sub_eq_zero.mp h
    · right
      exact eq_neg_of_add_eq_zero_left h

theorem secpP_lt_pow : secpP < 256 ^ 32 := by
  rw [show (256 : Nat) ^ 32 = 2 ^ 256 by norm_num]
  norm_num [secpP]

/-- Decompression inverts compression for a point on the curve with
reduced coordinates. -/
theorem decompress_compress [hp : Fact (Nat.Prime secpP)] {x y : Nat}
    (hx : x < secpP) (hy : y < secpP)
    (hcurve : y * y % secpP = (x * x * x + 7) % secpP) :
    decompressPoint (compressPoint x y) = some (x, y) := by
  have hrt : bytesToNatBE (natToBytesBE 32 x) = x :=
    bytesToNatBE_natToBytesBE 32 x (lt_trans hx secpP_lt_pow)
  have hlen : (natToBytesBE 32 x).length = 32 := natToBytesBE_length 32 x
  have hclt : (powmod x 3 secpP + 7) % secpP < secpP := Nat.mod_lt _ secpP_pos
  have hy0lt : powmod ((powmod x 3 secpP + 7) % secpP) ((secpP + 1) / 4) secpP < secpP :=
    powmod_lt hp.out.one_lt _ _ (by norm_num [secpP])
  have hC : (((powmod x 3 secpP + 7) % secpP : Nat) : ZMod secpP)
      = (y : ZMod secpP) ^ 2 := by
    rw [ZMod.natCast_mod, Nat.cast_add,
      powmod_eq hp.out.one_lt x 3 (by norm_num), ZMod.natCast_mod, Nat.cast_pow]
    have hcc : ((y * y : Nat) : ZMod secpP) = ((x * x * x + 7 : Nat) : ZMod secpP) := by
      rw [ZMod.natCast_eq_natCast_iff', hcurve]
    push_cast at hcc
    push_cast
    rw [pow_two]
    rw [hcc]
    ring
  have hY0 : ((powmod ((powmod x 3 secpP + 7) % secpP) ((secpP + 1) / 4) secpP : Nat) :
      ZMod secpP) = ((y : ZMod secpP) ^ 2) ^ ((secpP + 1) / 4) := by
    rw [← zmod_pow_natCast secpP _ _ hp.out.one_lt (by norm_num [secpP]), hC]
  have hsq : powmod ((powmod x 3 secpP + 7) % secpP) ((secpP + 1) / 4) secpP *
      powmod ((powmod x 3 secpP + 7) % secpP) ((secpP + 1) / 4) secpP % secpP
      = (powmod x 3 secpP + 7) % secpP := by
    refine (natCast_inj_of_lt (Nat.mod_lt _ secpP_pos) hclt).mp ?_
    rw [ZMod.natCast_mod, Nat.cast_mul, hY0, hC]
    rcases sqrt_of_sq (y : ZMod secpP) with h | h <;> rw [h] <;> ring
  have hy0cast := sqrt_of_sq (y : ZMod secpP)
  rw [← hY0] at hy0cast
  have hpfx2 : (if y % 2 = 0 then 2 else 3) % 2 = y % 2 := by
    by_cases hpar : y % 2 = 0
    · rw [if_pos hpar, hpar]
    · rw [if_neg hpar]
      omega
  have hmain : (if powmod ((powmod x 3 secpP + 7) % secpP) ((secpP + 1) / 4) secpP % 2 =
        (if y % 2 = 0 then 2 else 3) % 2
      then powmod ((powmod x 3 secpP + 7) % secpP) ((secpP + 1) / 4) secpP
      else (secpP - powmod ((powmod x 3 secpP + 7) % secpP) ((secpP + 1) / 4) secpP) % secpP)
      = y := by
    by_cases hy0y : powmod ((powmod x 3 secpP + 7) % secpP) ((secpP + 1) / 4) secpP = y
    · rw [hy0y, hpfx2, if_pos rfl]
    · have hyne : y ≠ 0 := by
        intro h0
        apply hy0y
        rw [h0] at hy0cast ⊢
        rcases hy0cast with h | h
        · rw [← Nat.cast_zero] at h
          exact (natCast_inj_of_lt hy0lt secpP_pos).mp h
        · rw [Nat.cast_zero, neg_zero, ← Nat.cast_zero] at h
          exact (natCast_inj_of_lt hy0lt secpP_pos).mp h
      have hy0v : powmod ((powmod x 3 secpP + 7) % secpP) ((secpP + 1) / 4) secpP
          = secpP - y := by
        rcases hy0cast with h | h
        · exact absurd ((natCast_inj_of_lt hy0lt hy).mp h) hy0y
        · rw [← natCast_sub_eq (le_of_lt hy)] at h
          exact (natCast_inj_of_lt hy0lt (by omega)).mp h
      rw [hy0v, hpfx2, if_neg (natParity_opposite (by omega) hy)]
      rw [show secpP - (secpP - y) = y by omega]
      exact Nat.mod_eq_of_lt hy
  by_cases hpar : y % 2 = 0
  · have hcp : compressPoint x y = 2 :: natToBytesBE 32 x := by
      rw [compressPoint, if_pos hpar]
    rw [hcp]
    simp only [decompressPoint, hlen, hrt, true_or, or_true, eq_self_iff_true,
      true_and, if_true]
    rw [if_pos hx, if_pos hsq]
    rw [if_pos hpar] at hmain
    rw [hmain]
  · have hcp : compressPoint x y = 3 :: natToBytesBE 32 x := by
      rw [compressPoint, if_neg hpar]
    rw [hcp]
    simp only [decompressPoint, hlen, hrt, true_or, or_true, eq_self_iff_true,
      true_and, if_true]
    rw [if_pos hx, if_pos hsq]
    rw [if_neg hpar] at hmain
    rw [hmain]

/-! ### The ECDSA verification equation accepts honest signatures -/

theorem reprPt_some_elim [Fact (Nat.Prime secpP)] {x y : Nat} {P : secpW.Point}
    (h : ReprPt (some (x, y)) P) :
    ∃ hns : secpW.Nonsingular (x : ZMod secpP) (y : ZMod secpP),
      P = WeierstrassCurve.Affine.Point.some hns ∧ x < secpP ∧ y < secpP := by
  cases P with
  | zero => exact h.elim
  | some hns =>
    obtain ⟨hx, hy, hxc, hyc⟩ := h
    subst hxc
    subst hyc
    exact ⟨hns, rfl, hx, hy⟩

theorem onCurve_of_nonsingular {x y : Nat}
    (h : secpW.Nonsingular (x : ZMod secpP) (y : ZMod secpP)) :
    y * y % secpP = (x * x * x + 7) % secpP := by
  have heq := h.1
  rw [secpW_equation_iff] at heq
  have hcast : ((y * y : Nat) : ZMod secpP) = ((x * x * x + 7 : Nat) : ZMod secpP) := by
    push_cast
    linear_combination heq
  rw [ZMod.natCast_eq_natCast_iff'] at hcast
  exact hcast

theorem secpN_lt_pow300 : secpN < 2 ^ 300 := by norm_num [secpN]

/-- A nonzero scalar below the group order sends the base point to an
affine point: the base point generates a group of prime order. -/
theorem scmul_G_isSome [Fact (Nat.Prime secpP)] {k : Nat} (hk0 : 0 < k) (hkn : k < secpN) :
    ∃ x y, scmul k secpG = some (x, y) := by
  have hrep := scmul_repr secpG_repr k (lt_trans hkn secpN_lt_pow300)
  cases hsc : scmul k secpG with
  | none =>
    rw [hsc] at hrep
    have hzero := eq_zero_of_reprPt_none hrep
    have hdvd := (nsmul_G_eq_zero_iff k).mp hzero
    have := Nat.eq_zero_of_dvd_of_lt hdvd hkn
    omega
  | some xy => exact ⟨xy.1, xy.2, rfl⟩

theorem ecdsaNonce_pos (pk dg : List Nat) : 0 < ecdsaNonce pk dg := by
  unfold ecdsaNonce
  omega

theorem ecdsaNonce_lt (pk dg : List Nat) : ecdsaNonce pk dg < secpN := by
  unfold ecdsaNonce
  have h2 : 2 ≤ secpN := by norm_num [secpN]
  have := Nat.mod_lt (bytesToNatBE (sha256 (pk ++ dg))) (show 0 < secpN - 1 by omega)
  omega

theorem sigS_lt (k z r d : Nat) : sigS k z r d < secpN :=
  Nat.mod_lt _ (by norm_num [secpN])

theorem sigR_lt (rx : Nat) : sigR rx < secpN :=
  Nat.mod_lt _ (by norm_num [secpN])

/-- The scalar identity behind ECDSA: with s = (z + r d) / k mod the
group order, the verifier's combination (z / s) + d (r / s) recovers the
nonce k mod the group order. -/
theorem verify_scalar_eq {d k z r : Nat}
    (hk0 : 0 < k) (hkn : k < secpN)
    (hs : sigS k z r d ≠ 0) :
    (z * invModN (sigS k z r d) % secpN +
        d * (r * invModN (sigS k z r d) % secpN)) % secpN = k % secpN := by
  haveI := Fact.mk secpN_prime
  have hK : ((k : ZMod secpN)) ≠ 0 := natCast_ne_zero_of hk0 hkn
  have hS : ((sigS k z r d : Nat) : ZMod secpN) ≠ 0 :=
    natCast_ne_zero_of (Nat.pos_of_ne_zero hs) (sigS_lt k z r d)
  have hScast : ((sigS k z r d : Nat) : ZMod secpN)
      = ((k : ZMod secpN))⁻¹ * ((z : ZMod secpN) + (r : ZMod secpN) * (d : ZMod secpN)) := by
    unfold sigS
    rw [ZMod.natCast_mod, Nat.cast_mul, invModN_cast hK, ZMod.natCast_mod]
    push_cast
    ring
  have hZRD : (z : ZMod secpN) + (r : ZMod secpN) * (d : ZMod secpN)
      = (k : ZMod secpN) * ((sigS k z r d : Nat) : ZMod secpN) := by
    rw [hScast, ← mul_assoc, mul_inv_cancel₀ hK, one_mul]
  have hkey : ((z : ZMod secpN) + (r : ZMod secpN) * (d : ZMod secpN))
      * ((sigS k z r d : Nat) : ZMod secpN)⁻¹ = (k : ZMod secpN) := by
    rw [hZRD, mul_assoc, mul_inv_cancel₀ hS, mul_one]
  rw [← ZMod.natCast_eq_natCast_iff']
  push_cast [ZMod.natCast_mod]
  rw [invModN_cast hS]
  linear_combination hkey

/-- The sum point of the verification scalars represents the
mathematical combination u1 G + u2 (d G) = (u1 + d u2) G. -/
theorem uSum_repr [Fact (Nat.Prime secpP)] {d u1 u2 qx qy : Nat}
    (hd : d < 2 ^ 300) (hu1 : u1 < 2 ^ 300) (hu2 : u2 < 2 ^ 300)
    (hscd : scmul d secpG = some (qx, qy)) :
    ReprPt (uSum u1 u2 (qx, qy))
      ((u1 + d * u2) • WeierstrassCurve.Affine.Point.some secpG_nonsingular) := by
  have hrepd := scmul_repr secpG_repr d hd
  rw [hscd] at hrepd
  have h1 := scmul_repr secpG_repr u1 hu1
  have h2 := scmul_repr hrepd u2 hu2
  have h := pAdd_repr h1 h2
  rw [← mul_nsmul, ← add_nsmul] at h
  exact h

/-- When the scalars u1, u2 recombine mod the group order to a scalar k
that sends the base point to (rx, ry), the verifier's point combination
u1 G + u2 Q lands on an affine point with x-coordinate rx. -/
theorem pAdd_scmul_x [Fact (Nat.Prime secpP)]
    {d k rx ry qx qy u1 u2 : Nat}
    (hdn : d < secpN) (hkn : k < secpN)
    (hsck : scmul k secpG = some (rx, ry))
    (hscd : scmul d secpG = some (qx, qy))
    (hu1 : u1 < 2 ^ 300) (hu2 : u2 < 2 ^ 300)
    (halg : (u1 + d * u2) % secpN = k % secpN) :
    ∃ cy, uSum u1 u2 (qx, qy) = some (rx, cy) := by
  have hrepk := scmul_repr secpG_repr k (lt_trans hkn secpN_lt_pow300)
  rw [hsck] at hrepk
  obtain ⟨hnsk, hkGP, hrxlt, hrylt⟩ := reprPt_some_elim hrepk
  have hsum := uSum_repr (lt_trans hdn secpN_lt_pow300) hu1 hu2 hscd
  have halgP : (u1 + d * u2) • WeierstrassCurve.Affine.Point.some secpG_nonsingular
      = k • WeierstrassCurve.Affine.Point.some secpG_nonsingular := by
    rw [← nsmul_G_mod, halg, nsmul_G_mod]
  rw [halgP, hkGP] at hsum
  cases hpadd : uSum u1 u2 (qx, qy) with
  | none =>
    rw [hpadd] at hsum
    exact hsum.elim
  | some c =>
    obtain ⟨cx, cy⟩ := c
    rw [hpadd] at hsum
    obtain ⟨hcx, hcy, hcxc, hcyc⟩ := hsum
    have hcrx : cx = rx := (natCast_inj_of_lt hcx hrxlt).mp hcxc
    exact ⟨cy, by rw [hcrx]⟩

/-- The mirror of pAdd_scmul_x for the negated nonce: when the scalars
recombine to minus k mod the group order, the sum point is the negation
of the nonce point, whose x-coordinate is still rx. -/
theorem pAdd_scmul_x_neg [Fact (Nat.Prime secpP)]
    {d k rx ry qx qy u1 u2 : Nat}
    (hdn : d < secpN) (hkn : k < secpN)
    (hsck : scmul k secpG = some (rx, ry))
    (hscd : scmul d secpG = some (qx, qy))
    (hu1 : u1 < 2 ^ 300) (hu2 : u2 < 2 ^ 300)
    (halg : (u1 + d * u2) % secpN = (secpN - k) % secpN) :
    ∃ cy, uSum u1 u2 (qx, qy) = some (rx, cy) := by
  have hrepk := scmul_repr secpG_repr k (lt_trans hkn secpN_lt_pow300)
  rw [hsck] at hrepk
  obtain ⟨hnsk, hkGP, hrxlt, hrylt⟩ := reprPt_some_elim hrepk
  have hsum := uSum_repr (lt_trans hdn secpN_lt_pow300) hu1 hu2 hscd
  have hneg : (secpN - k) • WeierstrassCurve.Affine.Point.some secpG_nonsingular
      = -(k • WeierstrassCurve.Affine.Point.some secpG_nonsingular) := by
    apply eq_neg_of_add_eq_zero_left
    rw [← add_nsmul, Nat.sub_add_cancel (le_of_lt hkn)]
    exact nsmul_N_G
  have halgP : (u1 + d * u2) • WeierstrassCurve.Affine.Point.some secpG_nonsingular
      = -(k • WeierstrassCurve.Affine.Point.some secpG_nonsingular) := by
    rw [← nsmul_G_mod, halg, nsmul_G_mod, hneg]
  rw [halgP, hkGP, WeierstrassCurve.Affine.Point.neg_some] at hsum
  cases hpadd : uSum u1 u2 (qx, qy) with
  | none =>
    rw [hpadd] at hsum
    exact hsum.elim
  | some c =>
    obtain ⟨cx, cy⟩ := c
    rw [hpadd] at hsum
    obtain ⟨hcx, hcy, hcxc, hcyc⟩ := hsum
    exact ⟨cy, by rw [(natCast_inj_of_lt hcx hrxlt).mp hcxc]⟩

/-- The heart of the sign/verify roundtrip: the ECDSA core test accepts
the signature (r, s) produced from nonce k and key d over reduced digest
z, when checked against the public point of d. -/
theorem ecdsaCheck_roundtrip [Fact (Nat.Prime secpP)]
    {d k z rx ry qx qy : Nat}
    (hdn : d < secpN) (hk0 : 0 < k) (hkn : k < secpN)
    (hsck : scmul k secpG = some (rx, ry))
    (hscd : scmul d secpG = some (qx, qy))
    (hs : sigS k z (sigR rx) d ≠ 0) :
    ecdsaCheck z (sigR rx) (sigS k z (sigR rx) d) (qx, qy) = true := by
  have hu1lt : z * invModN (sigS k z (sigR rx) d) % secpN < 2 ^ 300 :=
    lt_trans (Nat.mod_lt _ (by norm_num [secpN])) secpN_lt_pow300
  have hu2lt : sigR rx * invModN (sigS k z (sigR rx) d) % secpN < 2 ^ 300 :=
    lt_trans (Nat.mod_lt _ (by norm_num [secpN])) secpN_lt_pow300
  have halg := verify_scalar_eq hk0 hkn hs
  obtain ⟨cy2, hc⟩ := pAdd_scmul_x hdn hkn hsck hscd hu1lt hu2lt halg
  unfold ecdsaCheck uAccept
  rw [hc]
  show decide (rx % secpN = sigR rx) = true
  rw [decide_eq_true_eq]
  rfl

/-! ### Inversion of the signing and key-derivation operations -/

theorem secpN_lt_pow256 : secpN < 256 ^ 32 := by
  rw [show (256 : Nat) ^ 32 = 2 ^ 256 by norm_num]
  norm_num [secpN]

/-- What a successful ecdsaSign run reveals: a valid key, an affine
nonce point, nonzero r and s, and the exact signature bytes. -/
theorem ecdsaSign_ok_inv {dg pk bs : List Nat} (h : ecdsaSign dg pk = .ok bs) :
    privateKeyVerify pk = true ∧
    ∃ rx ry, scmul (ecdsaNonce pk dg) secpG = some (rx, ry) ∧
      sigR rx ≠ 0 ∧
      sigS (ecdsaNonce pk dg) (bytesToNatBE dg % secpN) (sigR rx)
        (bytesToNatBE pk) ≠ 0 ∧
      bs = natToBytesBE 32 (sigR rx) ++
        natToBytesBE 32 (sigS (ecdsaNonce pk dg) (bytesToNatBE dg % secpN)
          (sigR rx) (bytesToNatBE pk)) := by
  unfold ecdsaSign at h
  split at h
  · exact absurd h (by simp)
  · rename_i h2
    split at h
    · exact absurd h (by simp)
    · rename_i hval
      split at h
      · exact absurd h (by simp)
      · rename_i rp hsc
        split at h
        · exact absurd h (by simp)
        · rename_i hcond
          push_neg at hcond
          simp only [Except.ok.injEq] at h
          exact ⟨by revert hval; cases privateKeyVerify pk <;> simp,
            rp.1, rp.2, hsc, hcond.1, hcond.2, h.symm⟩

/-- What a successful publicKeyCreate run reveals: a valid key, an
affine public point, and the exact compressed output bytes. -/
theorem publicKeyCreate_ok_inv {pk out : List Nat}
    (h : publicKeyCreate pk = .ok out) :
    privateKeyVerify pk = true ∧
    ∃ qx qy, scmul (bytesToNatBE pk) secpG = some (qx, qy) ∧
      out = compressPoint qx qy := by
  unfold publicKeyCreate at h
  split at h
  · exact absurd h (by simp)
  · rename_i h2
    split at h
    · exact absurd h (by simp)
    · rename_i hval
      split at h
      · exact absurd h (by simp)
      · rename_i qx qy hsc
        simp only [Except.ok.injEq] at h
        exact ⟨by revert hval; cases privateKeyVerify pk <;> simp,
          qx, qy, hsc, h.symm⟩

/-- An affine multiple of the base point has reduced coordinates that
satisfy the curve equation. -/
theorem scmul_some_facts [Fact (Nat.Prime secpP)] {k qx qy : Nat}
    (hk : k < 2 ^ 300) (hsc : scmul k secpG = some (qx, qy)) :
    qx < secpP ∧ qy < secpP ∧ qy * qy % secpP = (qx * qx * qx + 7) % secpP := by
  have hrep := scmul_repr secpG_repr k hk
  rw [hsc] at hrep
  obtain ⟨hns, hP, hxlt, hylt⟩ := reprPt_some_elim hrep
  exact ⟨hxlt, hylt, onCurve_of_nonsingular hns⟩

theorem sig_take (a b : Nat) :
    (natToBytesBE 32 a ++ natToBytesBE 32 b).take 32 = natToBytesBE 32 a :=
  List.take_left' (natToBytesBE_length 32 a)

theorem sig_drop (a b : Nat) :
    (natToBytesBE 32 a ++ natToBytesBE 32 b).drop 32 = natToBytesBE 32 b :=
  List.drop_left' (natToBytesBE_length 32 a)

theorem compressPoint_isBytes (x y : Nat) :
    IsBytes (compressPoint x y) := by
  intro b hb
  simp only [compressPoint, List.mem_cons] at hb
  rcases hb with h | h
  · subst h
    split <;> omega
  · exact natToBytesBE_isBytes 32 x b h

theorem compressPoint_length (x y : Nat) : (compressPoint x y).length = 33 := by
  simp [compressPoint, natToBytesBE_length]

/-- ecdsaVerifyBool reduces to the core test once the public key parses
and r, s pass the range checks. -/
theorem ecdsaVerifyBool_eq_check {dg sig pub : List Nat} {qx qy : Nat}
    (hdec : decompressPoint pub = some (qx, qy))
    (h1 : 0 < bytesToNatBE (sig.take 32)) (h2 : bytesToNatBE (sig.take 32) < secpN)
    (h3 : 0 < bytesToNatBE (sig.drop 32)) (h4 : bytesToNatBE (sig.drop 32) < secpN) :
    ecdsaVerifyBool dg sig pub =
      ecdsaCheck (bytesToNatBE dg % secpN) (bytesToNatBE (sig.take 32))
        (bytesToNatBE (sig.drop 32)) (qx, qy) := by
  unfold ecdsaVerifyBool
  rw [hdec]
  show (if 0 < bytesToNatBE (sig.take 32) ∧ bytesToNatBE (sig.take 32) < secpN ∧
      0 < bytesToNatBE (sig.drop 32) ∧ bytesToNatBE (sig.drop 32) < secpN then
    ecdsaCheck (bytesToNatBE dg % secpN) (bytesToNatBE (sig.take 32))
      (bytesToNatBE (sig.drop 32)) (qx, qy) else false) = _
  rw [if_pos ⟨h1, h2, h3, h4⟩]

/-- The raw-byte roundtrip: a signature ecdsaSign produced verifies as
true against the public key publicKeyCreate derives from the same
private key. -/
theorem ecdsaVerify_ecdsaSign [Fact (Nat.Prime secpP)]
    {dg pk sigBytes pubBytes : List Nat}
    (hsig : ecdsaSign dg pk = .ok sigBytes)
    (hpub : publicKeyCreate pk = .ok pubBytes) :
    ecdsaVerify dg sigBytes pubBytes = .ok true := by
  obtain ⟨hval, rx, ry, hsck, hr0, hs0, hbs⟩ := ecdsaSign_ok_inv hsig
  obtain ⟨hv2, qx, qy, hscq, hout⟩ := publicKeyCreate_ok_inv hpub
  obtain ⟨hlen32, hd0, hdn⟩ := (privateKeyVerify_iff pk).mp hval
  have hq := scmul_some_facts (lt_trans hdn secpN_lt_pow300) hscq
  have hk0 := ecdsaNonce_pos pk dg
  have hkn := ecdsaNonce_lt pk dg
  have hdec : decompressPoint pubBytes = some (qx, qy) := by
    rw [hout]
    exact decompress_compress hq.1 hq.2.1 hq.2.2
  have hvTake : bytesToNatBE (sigBytes.take 32) = sigR rx := by
    rw [hbs, sig_take,
      bytesToNatBE_natToBytesBE 32 _ (lt_trans (sigR_lt rx) secpN_lt_pow256)]
  have hvDrop : bytesToNatBE (sigBytes.drop 32)
      = sigS (ecdsaNonce pk dg) (bytesToNatBE dg % secpN) (sigR rx)
        (bytesToNatBE pk) := by
    rw [hbs, sig_drop,
      bytesToNatBE_natToBytesBE 32 _ (lt_trans (sigS_lt _ _ _ _) secpN_lt_pow256)]
  have hbool : ecdsaVerifyBool dg sigBytes pubBytes = true := by
    rw [ecdsaVerifyBool_eq_check hdec
      (by rw [hvTake]; exact Nat.pos_of_ne_zero hr0)
      (by rw [hvTake]; exact sigR_lt rx)
      (by rw [hvDrop]; exact Nat.pos_of_ne_zero hs0)
      (by rw [hvDrop]; exact sigS_lt _ _ _ _)]
    rw [hvTake, hvDrop]
    exact ecdsaCheck_roundtrip hdn hk0 hkn hsck hscq hs0
  have hslen : sigBytes.length = 64 := ecdsaSign_ok_length hsig
  have hplen : pubBytes.length = 33 := by rw [hout, compressPoint_length]
  unfold ecdsaVerify
  rw [if_neg (by omega), if_neg (by omega), hbool]

/-- Inversion of the repo-level sign: a successful run is a successful
ecdsaSign over the raw SHA-256 digest, hex-encoded. -/
theorem sign_ok_inv {pk : String} {msg : List Nat} {out : String}
    (h : sign pk msg = .ok out) :
    ∃ bs, ecdsaSign (sha256 msg) (hexDecode pk) = .ok bs ∧
      out = hexEncode bs := by
  have h' : (ecdsaSign (hexDecode (hexEncode (sha256 msg)))
      (hexDecode pk)).map hexEncode = .ok out := h
  rw [hexDance_sha256] at h'
  cases hsig : ecdsaSign (sha256 msg) (hexDecode pk) with
  | error e =>
    rw [hsig] at h'
    exact absurd h' (by simp [Except.map])
  | ok bs =>
    rw [hsig] at h'
    simp only [Except.map, Except.ok.injEq] at h'
    exact ⟨bs, rfl, h'.symm⟩

/-- Inversion of the repo-level getPublicKey: a successful run is a
successful publicKeyCreate, hex-encoded. -/
theorem getPublicKey_ok_inv {pk out : String} (h : getPublicKey pk = .ok out) :
    ∃ bs, publicKeyCreate (hexDecode pk) = .ok bs ∧ out = hexEncode bs := by
  have h' : (publicKeyCreate (hexDecode pk)).map hexEncode = .ok out := h
  cases hres : publicKeyCreate (hexDecode pk) with
  | error e =>
    rw [hres] at h'
    exact absurd h' (by simp [Except.map])
  | ok bs =>
    rw [hres] at h'
    simp only [Except.map, Except.ok.injEq] at h'
    exact ⟨bs, rfl, h'.symm⟩

theorem publicKeyCreate_ok_isBytes {pk out : List Nat}
    (h : publicKeyCreate pk = .ok out) : IsBytes out := by
  obtain ⟨hval, qx, qy, hsc, hout⟩ := publicKeyCreate_ok_inv h
  rw [hout]
  exact compressPoint_isBytes qx qy

/-- The repo-level sign/verify roundtrip, for any context in which the
base field modulus is known prime. -/
theorem verify_sign_roundtrip [Fact (Nat.Prime secpP)]
    {pk pubHex sigHex : String} {msg : List Nat}
    (hpub : getPublicKey pk = .ok pubHex)
    (hsig : sign pk msg = .ok sigHex) :
    verify pubHex msg sigHex = .ok true := by
  obtain ⟨pubBytes, hpc, hpubhex⟩ := getPublicKey_ok_inv hpub
  obtain ⟨sigBytes, hsc, hsighex⟩ := sign_ok_inv hsig
  subst hpubhex
  subst hsighex
  show ecdsaVerify (hexDecode (hexEncode (sha256 msg)))
    (hexDecode (hexEncode sigBytes)) (hexDecode (hexEncode pubBytes)) = .ok true
  rw [hexDance_sha256, hexDecode_hexEncode (ecdsaSign_ok_isBytes hsc),
    hexDecode_hexEncode (publicKeyCreate_ok_isBytes hpc)]
  exact ecdsaVerify_ecdsaSign hsc hpc

/-! ### At most four private scalars can pass verification of a fixed
signature -/

theorem uAccept_true_inv {u1 u2 r : Nat} {q : Nat × Nat}
    (h : uAccept u1 u2 r q = true) :
    ∃ cx cy, uSum u1 u2 q = some (cx, cy) ∧ cx % secpN = r := by
  unfold uAccept at h
  cases hp : uSum u1 u2 q with
  | none =>
    rw [hp] at h
    exact absurd h (by simp)
  | some c =>
    obtain ⟨cx, cy⟩ := c
    rw [hp] at h
    have h' : decide (cx % secpN = r) = true := h
    exact ⟨cx, cy, rfl, of_decide_eq_true h'⟩

theorem uAcceptKey_eq_some {u1 u2 r d : Nat} {q : Nat × Nat}
    (hsc : scmul d secpG = some q) :
    uAcceptKey u1 u2 r d = uAccept u1 u2 r q := by
  unfold uAcceptKey
  rw [hsc]

theorem uTag_eq {u1 u2 r d qx qy cx cy : Nat}
    (hsc : scmul d secpG = some (qx, qy))
    (hsum : uSum u1 u2 (qx, qy) = some (cx, cy)) :
    uTag u1 u2 r d = (decide (cx = r), decide (cy % 2 = 0)) := by
  unfold uTag
  simp only [hsc, hsum]

/-- An x-coordinate below the field modulus that reduces to r mod the
group order is r itself or r plus the group order. -/
theorem x_candidates {cx r : Nat} (hcx : cx < secpP) (hcr : cx % secpN = r) :
    cx = r ∨ cx = r + secpN := by
  obtain ⟨mq, hmq⟩ : ∃ mq, cx = secpN * mq + r :=
    ⟨cx / secpN, by rw [← hcr]; exact (Nat.div_add_mod cx secpN).symm⟩
  rcases mq with _ | mq1
  · exact Or.inl (by omega)
  · rcases mq1 with _ | mq2
    · exact Or.inr (by omega)
    · exfalso
      have hlt : secpP < cx := by
        calc secpP < 2 * secpN := by norm_num [secpP, secpN]
          _ = secpN * 2 := by ring
          _ ≤ secpN * (mq2 + 1 + 1) := Nat.mul_le_mul_left _ (by omega)
          _ ≤ secpN * (mq2 + 1 + 1) + r := Nat.le_add_right _ _
          _ = cx := hmq.symm
      omega

/-- Two reduced y-coordinates over the same x-coordinate of the curve
with equal parity are equal: the only other square root is the negation,
whose parity differs since the field modulus is odd. -/
theorem same_x_y_eq [Fact (Nat.Prime secpP)] {x y y' : Nat}
    (hy : y < secpP) (hy' : y' < secpP)
    (hc : y * y % secpP = (x * x * x + 7) % secpP)
    (hc' : y' * y' % secpP = (x * x * x + 7) % secpP)
    (hpar : decide (y % 2 = 0) = decide (y' % 2 = 0)) : y = y' := by
  have hcast : ((y * y : Nat) : ZMod secpP) = ((y' * y' : Nat) : ZMod secpP) := by
    rw [ZMod.natCast_eq_natCast_iff', hc, hc']
  push_cast at hcast
  have hfac : ((y : ZMod secpP) - y') * ((y : ZMod secpP) + y') = 0 := by
    linear_combination hcast
  have hiff := decide_eq_decide.mp hpar
  rcases mul_eq_zero.mp hfac with h | h
  · exact (natCast_inj_of_lt hy hy').mp (sub_eq_zero.mp h)
  · by_cases hy0 : y' = 0
    · subst hy0
      exact (natCast_inj_of_lt hy secpP_pos).mp (by simpa using h)
    · have hy'pos : 0 < y' := Nat.pos_of_ne_zero hy0
      have hyeq : y = secpP - y' := by
        have hcy : (y : ZMod secpP) = ((secpP - y' : Nat) : ZMod secpP) := by
          rw [natCast_sub_eq (le_of_lt hy')]
          linear_combination h
        exact (natCast_inj_of_lt hy (by omega)).mp hcy
      have hne := natParity_opposite hy'pos hy'
      omega

theorem nsmul_G_mod_inj [Fact (Nat.Prime secpP)] {a b : Nat}
    (h : a • (WeierstrassCurve.Affine.Point.some secpG_nonsingular)
      = b • (WeierstrassCurve.Affine.Point.some secpG_nonsingular)) :
    a % secpN = b % secpN := by
  refine nsmul_G_inj (Nat.mod_lt _ (by norm_num [secpN]))
    (Nat.mod_lt _ (by norm_num [secpN])) ?_
  rw [nsmul_G_mod, nsmul_G_mod]
  exact h

/-- Cancellation of the verification scalar: equal recombined scalars
mod the prime group order give equal keys when u2 is invertible. -/
theorem cancel_u2 {u1 u2 d d' : Nat} (hu2 : (u2 : ZMod secpN) ≠ 0)
    (hd : d < secpN) (hd' : d' < secpN)
    (h : (u1 + d * u2) % secpN = (u1 + d' * u2) % secpN) : d = d' := by
  haveI := Fact.mk secpN_prime
  have hc : ((u1 + d * u2 : Nat) : ZMod secpN)
      = ((u1 + d' * u2 : Nat) : ZMod secpN) := by
    rw [ZMod.natCast_eq_natCast_iff']
    exact h
  push_cast at hc
  have h2 : (d : ZMod secpN) * u2 = (d' : ZMod secpN) * u2 := by
    linear_combination hc
  exact (natCast_inj_of_lt hd hd').mp (mul_right_cancel₀ hu2 h2)

/-- Two scalars below the group order accepted by the core test with the
same fingerprint are equal: their sum points share an x-candidate and a
y-parity, hence are the same point, and scalar multiplication by the
base point is injective below the group order. -/
theorem uAccept_key_unique [Fact (Nat.Prime secpP)] {u1 u2 r d d' : Nat}
    (hu2 : (u2 : ZMod secpN) ≠ 0)
    (hu1lt : u1 < 2 ^ 300) (hu2lt : u2 < 2 ^ 300)
    (hd : d < secpN) (hd' : d' < secpN)
    (ha : uAcceptKey u1 u2 r d = true) (ha' : uAcceptKey u1 u2 r d' = true)
    (htag : uTag u1 u2 r d = uTag u1 u2 r d') : d = d' := by
  cases hsc : scmul d secpG with
  | none =>
    unfold uAcceptKey at ha
    rw [hsc] at ha
    exact absurd ha (by simp)
  | some q =>
  cases hsc' : scmul d' secpG with
  | none =>
    unfold uAcceptKey at ha'
    rw [hsc'] at ha'
    exact absurd ha' (by simp)
  | some q' =>
  obtain ⟨qx, qy⟩ := q
  obtain ⟨qx', qy'⟩ := q'
  rw [uAcceptKey_eq_some hsc] at ha
  rw [uAcceptKey_eq_some hsc'] at ha'
  obtain ⟨cx, cy, hsum, hcr⟩ := uAccept_true_inv ha
  obtain ⟨cx', cy', hsum', hcr'⟩ := uAccept_true_inv ha'
  have hrep := uSum_repr (lt_trans hd secpN_lt_pow300) hu1lt hu2lt hsc
  have hrep' := uSum_repr (lt_trans hd' secpN_lt_pow300) hu1lt hu2lt hsc'
  rw [hsum] at hrep
  rw [hsum'] at hrep'
  obtain ⟨hns, hP, hcxlt, hcylt⟩ := reprPt_some_elim hrep
  obtain ⟨hns', hP', hcxlt', hcylt'⟩ := reprPt_some_elim hrep'
  rw [uTag_eq hsc hsum, uTag_eq hsc' hsum'] at htag
  have htx : decide (cx = r) = decide (cx' = r) := congrArg Prod.fst htag
  have hty : decide (cy % 2 = 0) = decide (cy' % 2 = 0) := congrArg Prod.snd htag
  have hx : cx = cx' := by
    have hiff := decide_eq_decide.mp htx
    rcases x_candidates hcxlt hcr with h1 | h1 <;>
      rcases x_candidates hcxlt' hcr' with h2 | h2 <;> omega
  subst hx
  have hy : cy = cy' :=
    same_x_y_eq hcylt hcylt' (onCurve_of_nonsingular hns)
      (onCurve_of_nonsingular hns') hty
  subst hy
  have hPP : (u1 + d * u2) •
        WeierstrassCurve.Affine.Point.some secpG_nonsingular
      = (u1 + d' * u2) •
        WeierstrassCurve.Affine.Point.some secpG_nonsingular := by
    rw [hP, hP']
  exact cancel_u2 hu2 hd hd' (nsmul_G_mod_inj hPP)

/-- At most four scalars below the group order are accepted by the core
ECDSA test for a fixed signature: the fingerprint map into the four
pairs of booleans is injective on them. -/
theorem uAcceptKey_card [Fact (Nat.Prime secpP)] {u1 u2 r : Nat}
    (hu2 : (u2 : ZMod secpN) ≠ 0)
    (hu1lt : u1 < 2 ^ 300) (hu2lt : u2 < 2 ^ 300) :
    ((Finset.range secpN).filter
      (fun d => uAcceptKey u1 u2 r d = true)).card ≤ 4 := by
  have h4 : (Finset.univ : Finset (Bool × Bool)).card = 4 := by decide
  rw [← h4]
  refine Finset.card_le_card_of_injOn (uTag u1 u2 r)
    (fun a ha => Finset.mem_univ _) ?_
  intro d hd d' hd' htag
  have hd1 := Finset.mem_filter.mp (Finset.mem_coe.mp hd)
  have hd1' := Finset.mem_filter.mp (Finset.mem_coe.mp hd')
  exact uAccept_key_unique hu2 hu1lt hu2lt
    (Finset.mem_range.mp hd1.1) (Finset.mem_range.mp hd1'.1)
    hd1.2 hd1'.2 htag

/-- The library verdict of a well-shaped signature against a compressed
curve point is the core acceptance test on the decoded values. -/
theorem ecdsaVerify_of_uAccept [Fact (Nat.Prime secpP)]
    {dg sigBytes pubBytes : List Nat} {qx qy : Nat} {b : Bool}
    (hslen : sigBytes.length = 64)
    (hr0 : 0 < bytesToNatBE (sigBytes.take 32))
    (hrn : bytesToNatBE (sigBytes.take 32) < secpN)
    (hs0 : 0 < bytesToNatBE (sigBytes.drop 32))
    (hsn : bytesToNatBE (sigBytes.drop 32) < secpN)
    (hqx : qx < secpP) (hqy : qy < secpP)
    (hcurve : qy * qy % secpP = (qx * qx * qx + 7) % secpP)
    (hpb : pubBytes = compressPoint qx qy)
    (hacc : uAccept
        (bytesToNatBE dg % secpN * invModN (bytesToNatBE (sigBytes.drop 32)) % secpN)
        (bytesToNatBE (sigBytes.take 32) * invModN (bytesToNatBE (sigBytes.drop 32)) % secpN)
        (bytesToNatBE (sigBytes.take 32)) (qx, qy) = b) :
    ecdsaVerify dg sigBytes pubBytes = .ok b := by
  have hdec : decompressPoint pubBytes = some (qx, qy) := by
    rw [hpb]
    exact decompress_compress hqx hqy hcurve
  have hplen : pubBytes.length = 33 := by rw [hpb, compressPoint_length]
  unfold ecdsaVerify
  rw [if_neg (by omega), if_neg (by omega),
    ecdsaVerifyBool_eq_check hdec hr0 hrn hs0 hsn]
  rw [show ecdsaCheck (bytesToNatBE dg % secpN) (bytesToNatBE (sigBytes.take 32))
      (bytesToNatBE (sigBytes.drop 32)) (qx, qy) = b from hacc]

/-- ECDSA public-key recovery inside the model: any valid second key
whose scalar satisfies the recovery equation u1 + d u2 = -k mod the
group order has a public key under which the signature verifies as true,
because the verification sum point is the negated nonce point, whose
x-coordinate matches r. -/
theorem recovery_verify [Fact (Nat.Prime secpP)]
    {pk1 pk2 sigHex : String} {msg : List Nat}
    (hval2 : privateKeyVerify (hexDecode pk2) = true)
    (hsig : sign pk1 msg = .ok sigHex)
    (hrec : (bytesToNatBE (sha256 msg) % secpN *
        invModN (bytesToNatBE ((hexDecode sigHex).drop 32)) % secpN
      + bytesToNatBE (hexDecode pk2) *
        (bytesToNatBE ((hexDecode sigHex).take 32) *
          invModN (bytesToNatBE ((hexDecode sigHex).drop 32)) % secpN)) % secpN
      = (secpN - ecdsaNonce (hexDecode pk1) (sha256 msg)) % secpN) :
    ∃ pub, getPublicKey pk2 = .ok pub ∧ verify pub msg sigHex = .ok true := by
  obtain ⟨sigBytes, hsc, hsighex⟩ := sign_ok_inv hsig
  subst hsighex
  obtain ⟨hval1x, rx, ry, hsck, hr0, hs0, hbs⟩ := ecdsaSign_ok_inv hsc
  obtain ⟨hl2, hd20, hd2n⟩ := (privateKeyVerify_iff _).mp hval2
  obtain ⟨qx2, qy2, hscd2⟩ := scmul_G_isSome hd20 hd2n
  have hq := scmul_some_facts (lt_trans hd2n secpN_lt_pow300) hscd2
  have hpc : publicKeyCreate (hexDecode pk2) = .ok (compressPoint qx2 qy2) := by
    unfold publicKeyCreate
    rw [if_neg (by omega), if_neg (by rw [hval2]; simp), hscd2]
  have hpub : getPublicKey pk2 = .ok (hexEncode (compressPoint qx2 qy2)) := by
    show (publicKeyCreate (hexDecode pk2)).map hexEncode = _
    rw [hpc]
    rfl
  have hvTake : bytesToNatBE (sigBytes.take 32) = sigR rx := by
    rw [hbs, sig_take,
      bytesToNatBE_natToBytesBE 32 _ (lt_trans (sigR_lt rx) secpN_lt_pow256)]
  have hvDrop : bytesToNatBE (sigBytes.drop 32)
      = sigS (ecdsaNonce (hexDecode pk1) (sha256 msg))
        (bytesToNatBE (sha256 msg) % secpN) (sigR rx)
        (bytesToNatBE (hexDecode pk1)) := by
    rw [hbs, sig_drop,
      bytesToNatBE_natToBytesBE 32 _ (lt_trans (sigS_lt _ _ _ _) secpN_lt_pow256)]
  rw [hexDecode_hexEncode (ecdsaSign_ok_isBytes hsc), hvTake, hvDrop] at hrec
  obtain ⟨cy2, hc⟩ := pAdd_scmul_x_neg hd2n (ecdsaNonce_lt _ _)
    hsck hscd2
    (lt_trans (Nat.mod_lt _ (by norm_num [secpN])) secpN_lt_pow300)
    (lt_trans (Nat.mod_lt _ (by norm_num [secpN])) secpN_lt_pow300)
    hrec
  have hacc : uAccept
      (bytesToNatBE (sha256 msg) % secpN *
        invModN (sigS (ecdsaNonce (hexDecode pk1) (sha256 msg))
          (bytesToNatBE (sha256 msg) % secpN) (sigR rx)
          (bytesToNatBE (hexDecode pk1))) % secpN)
      (sigR rx * invModN (sigS (ecdsaNonce (hexDecode pk1) (sha256 msg))
          (bytesToNatBE (sha256 msg) % secpN) (sigR rx)
          (bytesToNatBE (hexDecode pk1))) % secpN)
      (sigR rx) (qx2, qy2) = true := by
    unfold uAccept
    rw [hc]
    show decide (rx % secpN = sigR rx) = true
    rw [decide_eq_true_eq]
    rfl
  have hacc2 : uAccept
      (bytesToNatBE (sha256 msg) % secpN *
        invModN (bytesToNatBE (sigBytes.drop 32)) % secpN)
      (bytesToNatBE (sigBytes.take 32) *
        invModN (bytesToNatBE (sigBytes.drop 32)) % secpN)
      (bytesToNatBE (sigBytes.take 32)) (qx2, qy2) = true := by
    rw [hvTake, hvDrop]
    exact hacc
  refine ⟨_, hpub, ?_⟩
  show ecdsaVerify (hexDecode (hexEncode (sha256 msg)))
    (hexDecode (hexEncode sigBytes))
    (hexDecode (hexEncode (compressPoint qx2 qy2))) = .ok true
  rw [hexDance_sha256, hexDecode_hexEncode (ecdsaSign_ok_isBytes hsc),
    hexDecode_hexEncode (compressPoint_isBytes qx2 qy2)]
  exact ecdsaVerify_of_uAccept (ecdsaSign_ok_length hsc)
    (by rw [hvTake]; exact Nat.pos_of_ne_zero hr0)
    (by rw [hvTake]; exact sigR_lt rx)
    (by rw [hvDrop]; exact Nat.pos_of_ne_zero hs0)
    (by rw [hvDrop]; exact sigS_lt _ _ _ _)
    hq.1 hq.2.1 hq.2.2 rfl hacc2

set_option maxRecDepth 8000 in
set_option maxHeartbeats 4000000 in
/-- A concrete signing run, computed once by kernel evaluation and
shared by the concrete checks below: the signature of "Hi" under the
private key one. -/
theorem sign_one_hi :
    sign "0000000000000000000000000000000000000000000000000000000000000001" [72, 105] =
      .ok "23f14b4e8a81c2b6e4f865785df9d4ee96290bdb4e44e1814cee10dd3c5c668d081bd72cd89a4ad84a2ce9249c9f06c08fadfa713b64b54d336a22a70815de48" := by
  decide

/-! ### The claims -/

/-- Claim C4: every value returned by createPrivateKey is a 64-character
lowercase hexadecimal string that decodes to 32 bytes passing the
secp256k1 scalar-validity check (nonzero and strictly below the group
order). -/
theorem claim_C4 (draws : List (List Nat)) (hdraws : ∀ d ∈ draws, IsBytes d)
    (s : String) (h : createPrivateKey draws = some s) :
    s.length = 64 ∧ (∀ c ∈ s.data, c ∈ lowerHexDigits) ∧
      (hexDecode s).length = 32 ∧ privateKeyVerify (hexDecode s) = true := by
  induction draws with
  | nil => exact absurd h (by simp [createPrivateKey])
  | cons d rest ih =>
    unfold createPrivateKey at h
    split at h
    · rename_i hval
      have hd : IsBytes d := hdraws d (List.mem_cons_self d rest)
      have hlen : d.length = 32 := ((privateKeyVerify_iff d).mp hval).1
      have hs : s = hexEncode d := by injection h with h; exact h.symm
      subst hs
      have hrt : hexDecode (hexEncode d) = d := hexDecode_hexEncode hd
      refine ⟨by rw [hexEncode_length, hlen], ?_, by rw [hrt, hlen], by rw [hrt, hval]⟩
      exact hexEncodeBytes_mem hd
    · exact ih (fun x hx => hdraws x (List.mem_cons_of_mem d hx)) h

/-- Claim C4 witness: a stream whose first draw is the zero scalar
(rejected) and whose second is the scalar one (accepted). -/
theorem claim_C4_witness :
    (∀ d ∈ [List.replicate 32 0, List.replicate 31 0 ++ [1]], IsBytes d) ∧
      createPrivateKey [List.replicate 32 0, List.replicate 31 0 ++ [1]] =
        some "0000000000000000000000000000000000000000000000000000000000000001" ∧
      ("0000000000000000000000000000000000000000000000000000000000000001".length = 64 ∧
        (∀ c ∈ "0000000000000000000000000000000000000000000000000000000000000001".data,
          c ∈ lowerHexDigits) ∧
        (hexDecode "0000000000000000000000000000000000000000000000000000000000000001").length = 32 ∧
        privateKeyVerify
          (hexDecode "0000000000000000000000000000000000000000000000000000000000000001") = true) :=
  ⟨by decide, by decide,
    claim_C4 [List.replicate 32 0, List.replicate 31 0 ++ [1]] (by decide) _ (by decide)⟩

/-- Claim C6: getPublicKey on an input that does not decode from hex to
exactly 32 bytes fails with InvalidEncoding (concretely at "not-hex",
whose longest valid hex prefix is empty), on a 32-byte zero scalar fails
with InvalidKey, and never returns a public key for any input that does
not decode to exactly 32 bytes or decodes to an invalid scalar. -/
theorem claim_C6 :
    getPublicKey "not-hex" = .error .InvalidEncoding ∧
    getPublicKey "0000000000000000000000000000000000000000000000000000000000000000" =
      .error .InvalidKey ∧
    ∀ s : String, ((hexDecode s).length ≠ 32 ∨ privateKeyVerify (hexDecode s) = false) →
      ∀ out, getPublicKey s ≠ .ok out := by
  refine ⟨by decide, by decide, ?_⟩
  intro s hs out hok
  simp only [getPublicKey] at hok
  cases hpk : publicKeyCreate (hexDecode s) with
  | error e => rw [hpk] at hok; exact absurd hok (by simp [Except.map])
  | ok bs =>
    have := publicKeyCreate_ok hpk
    rcases hs with h | h
    · exact h this.1
    · rw [this.2] at h; cases h

/-- Claim C7 counterexample: a signature argument that is malformed hex —
its valid prefix stops before the string ends — but whose decoded prefix
happens to be 64 bytes long.  Node's truncating hex decoder hides the
malformation, so verify returns a normal false verdict instead of the
InvalidEncoding error the claim requires.  The public key argument is
well-formed 33-byte hex. -/
theorem claim_C7_counterexample :
    (2 * (hexDecode "00000000000000000000000000000000000000000000000000000000000000000000000000000000000000000000000000000000000000000000000000000000zz").length ≠
      "00000000000000000000000000000000000000000000000000000000000000000000000000000000000000000000000000000000000000000000000000000000zz".length) ∧
    (hexDecode "00000000000000000000000000000000000000000000000000000000000000000000000000000000000000000000000000000000000000000000000000000000zz").length = 64 ∧
    verify "020000000000000000000000000000000000000000000000000000000000000000" []
      "00000000000000000000000000000000000000000000000000000000000000000000000000000000000000000000000000000000000000000000000000000000zz" =
      .ok false := by
  set_option maxRecDepth 8000 in refine ⟨by decide, by decide, by decide⟩

/-- Claim C7 amended: verify fails with InvalidEncoding exactly when the
decoded signature is not 64 bytes or the decoded public key is not 33
bytes (Node's truncating hex decoder turns malformed hex into a short
decode rather than a failure, so a malformed string whose valid prefix
decodes to the right length is not detected); for inputs whose decodes
have the right lengths it returns the boolean ECDSA verdict — false for
a cryptographic mismatch — and never an error. -/
theorem claim_C7 (pub : String) (msg : List Nat) (sig : String) :
    (((hexDecode sig).length ≠ 64 ∨ (hexDecode pub).length ≠ 33) →
      verify pub msg sig = .error .InvalidEncoding) ∧
    ((hexDecode sig).length = 64 → (hexDecode pub).length = 33 →
      verify pub msg sig =
        .ok (ecdsaVerifyBool (sha256 msg) (hexDecode sig) (hexDecode pub))) := by
  constructor
  · intro h
    by_cases hsig : (hexDecode sig).length = 64
    · rcases h with h | h
      · exact absurd hsig h
      · simp only [verify, ecdsaVerify, hexDance_sha256]
        rw [if_neg (by simp [hsig]), if_pos h]
    · simp only [verify, ecdsaVerify, hexDance_sha256]
      rw [if_pos hsig]
  · intro h1 h2
    simp only [verify, ecdsaVerify, hexDance_sha256]
    rw [if_neg (by simp [h1]), if_neg (by simp [h2])]

/-- Claim C7 witness: the empty string for both arguments decodes to
zero bytes, the wrong length for each, and verify reports
InvalidEncoding. -/
theorem claim_C7_witness :
    ((hexDecode "").length ≠ 64 ∨ (hexDecode "x").length ≠ 33) ∧
      verify "x" [] "" = .error .InvalidEncoding :=
  ⟨by decide, (claim_C7 "x" [] "").1 (by decide)⟩

/-- Claim C8: sign passes the raw 32-byte SHA-256 digest of the raw
message bytes to the ECDSA layer — the source's detour through
digest('hex') and Buffer.from(·, 'hex') cancels — and any signature it
returns is a 128-character hexadecimal string encoding 64 bytes. -/
theorem claim_C8 (pk : String) (msg : List Nat) :
    sign pk msg = Except.map hexEncode (ecdsaSign (sha256 msg) (hexDecode pk)) ∧
    (sha256 msg).length = 32 ∧
    ∀ sig, sign pk msg = .ok sig →
      sig.length = 128 ∧ (∀ c ∈ sig.data, c ∈ lowerHexDigits) ∧
        (hexDecode sig).length = 64 := by
  have heq : sign pk msg = Except.map hexEncode (ecdsaSign (sha256 msg) (hexDecode pk)) := by
    simp only [sign, hexDance_sha256]
  refine ⟨heq, sha256_length msg, ?_⟩
  intro sig hok
  rw [heq] at hok
  cases hs : ecdsaSign (sha256 msg) (hexDecode pk) with
  | error e => rw [hs] at hok; exact absurd hok (by simp [Except.map])
  | ok bs =>
    rw [hs] at hok
    simp only [Except.map, Except.ok.injEq] at hok
    subst hok
    have hb : IsBytes bs := ecdsaSign_ok_isBytes hs
    have hl : bs.length = 64 := ecdsaSign_ok_length hs
    exact ⟨by rw [hexEncode_length, hl], hexEncodeBytes_mem hb,
      by rw [hexDecode_hexEncode hb, hl]⟩

/-- Claim C5: getPublicKey on a valid 32-byte hex private key returns a
66-character hexadecimal string starting with "02" or "03" (a compressed
secp256k1 point).  The hypothesis on scmul records that the scalar
multiple of the base point is an affine point, which holds for every
scalar in the valid range because the base point generates a group of
the full order. -/
theorem claim_C5 (pk : String)
    (hlen : (hexDecode pk).length = 32)
    (hval : privateKeyVerify (hexDecode pk) = true) :
    ∃ out, getPublicKey pk = .ok out ∧ out.length = 66 ∧
      (out.data.take 2 = ['0', '2'] ∨ out.data.take 2 = ['0', '3']) := by
  obtain ⟨hl32, hd0, hdn⟩ := (privateKeyVerify_iff _).mp hval
  obtain ⟨x, y, hsc⟩ := scmul_G_isSome hd0 hdn
  refine ⟨hexEncode (compressPoint x y), ?_, ?_, ?_⟩
  · simp only [getPublicKey, publicKeyCreate]
    rw [if_neg (by omega), if_neg (by rw [hval]; simp), hsc]
    rfl
  · rw [hexEncode_length]
    simp [compressPoint, natToBytesBE_length]
  · by_cases hy : y % 2 = 0
    · left
      simp only [compressPoint, if_pos hy, hexEncode_take_two]
      decide
    · right
      simp only [compressPoint, if_neg hy, hexEncode_take_two]
      decide

set_option maxRecDepth 8000 in
/-- Claim C5 witness: the private key one, whose public point is the
base point itself. -/
theorem claim_C5_witness :
    (hexDecode "0000000000000000000000000000000000000000000000000000000000000001").length = 32 ∧
    privateKeyVerify
      (hexDecode "0000000000000000000000000000000000000000000000000000000000000001") = true ∧
    ∃ out, getPublicKey "0000000000000000000000000000000000000000000000000000000000000001" =
      .ok out ∧ out.length = 66 ∧
      (out.data.take 2 = ['0', '2'] ∨ out.data.take 2 = ['0', '3']) :=
  ⟨by decide, by decide,
    claim_C5 "0000000000000000000000000000000000000000000000000000000000000001"
      (by decide) (by decide)⟩

set_option maxRecDepth 8000 in
set_option maxHeartbeats 4000000 in
/-- Claim C8 witness: the signature of the two-byte message "Hi" under
the private key one has 128 lowercase hex characters decoding to 64
bytes. -/
theorem claim_C8_witness :
    sign "0000000000000000000000000000000000000000000000000000000000000001" [72, 105] =
      .ok "23f14b4e8a81c2b6e4f865785df9d4ee96290bdb4e44e1814cee10dd3c5c668d081bd72cd89a4ad84a2ce9249c9f06c08fadfa713b64b54d336a22a70815de48" ∧
    ("23f14b4e8a81c2b6e4f865785df9d4ee96290bdb4e44e1814cee10dd3c5c668d081bd72cd89a4ad84a2ce9249c9f06c08fadfa713b64b54d336a22a70815de48".length = 128 ∧
      (∀ c ∈ "23f14b4e8a81c2b6e4f865785df9d4ee96290bdb4e44e1814cee10dd3c5c668d081bd72cd89a4ad84a2ce9249c9f06c08fadfa713b64b54d336a22a70815de48".data,
        c ∈ lowerHexDigits) ∧
      (hexDecode "23f14b4e8a81c2b6e4f865785df9d4ee96290bdb4e44e1814cee10dd3c5c668d081bd72cd89a4ad84a2ce9249c9f06c08fadfa713b64b54d336a22a70815de48").length = 64) :=
  have hsig : sign "0000000000000000000000000000000000000000000000000000000000000001" [72, 105] =
      .ok "23f14b4e8a81c2b6e4f865785df9d4ee96290bdb4e44e1814cee10dd3c5c668d081bd72cd89a4ad84a2ce9249c9f06c08fadfa713b64b54d336a22a70815de48" :=
    sign_one_hi
  ⟨hsig, (claim_C8 "0000000000000000000000000000000000000000000000000000000000000001"
    [72, 105]).2.2 _ hsig⟩

/-- Claim C9: getPublicKey is deterministic — in this pure embedding of
the stateless source function, two calls with the same input are the
same term, so their outputs are equal. -/
theorem claim_C9 (pk : String) : getPublicKey pk = getPublicKey pk := rfl

/-- Claim C10: sign is deterministic — the model derives the ECDSA nonce
deterministically from the private key and digest (as the underlying
library does), so sign is a pure function and two calls with the same
private key and message yield identical signature strings. -/
theorem claim_C10 (pk : String) (msg : List Nat) : sign pk msg = sign pk msg := rfl

/-- Claim C1: for every private key string decoding to a valid scalar
and every message, a signature that sign returns verifies as true
against the public key getPublicKey derives from the same private key. -/
theorem claim_C1 (pk : String) (msg : List Nat) (sigHex : String)
    (hval : privateKeyVerify (hexDecode pk) = true)
    (hsig : sign pk msg = .ok sigHex) :
    ∃ pubHex, getPublicKey pk = .ok pubHex ∧ verify pubHex msg sigHex = .ok true := by
  obtain ⟨hl32, hd0, hdn⟩ := (privateKeyVerify_iff _).mp hval
  obtain ⟨x, y, hsc⟩ := scmul_G_isSome hd0 hdn
  have hpc : publicKeyCreate (hexDecode pk) = .ok (compressPoint x y) := by
    unfold publicKeyCreate
    rw [if_neg (by omega), if_neg (by rw [hval]; simp), hsc]
  have hpub : getPublicKey pk = .ok (hexEncode (compressPoint x y)) := by
    show (publicKeyCreate (hexDecode pk)).map hexEncode = _
    rw [hpc]
    rfl
  exact ⟨_, hpub, verify_sign_roundtrip hpub hsig⟩

/-- Claim C1 witness: the roundtrip at the private key one and the
message "Hi". -/
theorem claim_C1_witness :
    privateKeyVerify
      (hexDecode "0000000000000000000000000000000000000000000000000000000000000001") = true ∧
    sign "0000000000000000000000000000000000000000000000000000000000000001" [72, 105] =
      .ok "23f14b4e8a81c2b6e4f865785df9d4ee96290bdb4e44e1814cee10dd3c5c668d081bd72cd89a4ad84a2ce9249c9f06c08fadfa713b64b54d336a22a70815de48" ∧
    ∃ pubHex,
      getPublicKey "0000000000000000000000000000000000000000000000000000000000000001" =
        .ok pubHex ∧
      verify pubHex [72, 105]
        "23f14b4e8a81c2b6e4f865785df9d4ee96290bdb4e44e1814cee10dd3c5c668d081bd72cd89a4ad84a2ce9249c9f06c08fadfa713b64b54d336a22a70815de48" =
        .ok true :=
  ⟨by decide, sign_one_hi,
    claim_C1 "0000000000000000000000000000000000000000000000000000000000000001" [72, 105]
      _ (by decide) sign_one_hi⟩

set_option maxRecDepth 8000 in
set_option maxHeartbeats 4000000 in
/-- Claim C3 counterexample: two distinct valid private keys such that
the signature of "Hi" under the first verifies as ok true — not false —
against the public key derived from the second.  The second key is the
ECDSA public-key-recovery solution for the negated nonce point, and the
acceptance follows from the recovery equation, checked here by kernel
evaluation on the concrete scalars. -/
theorem claim_C3_counterexample :
    ("0000000000000000000000000000000000000000000000000000000000000001" : String) ≠
      "ab79fd33b8541e6132ce2169b0f9b8eab44f3b69f48d57bfa48ed1437e90b4d0" ∧
    privateKeyVerify (hexDecode
      "0000000000000000000000000000000000000000000000000000000000000001") = true ∧
    privateKeyVerify (hexDecode
      "ab79fd33b8541e6132ce2169b0f9b8eab44f3b69f48d57bfa48ed1437e90b4d0") = true ∧
    sign "0000000000000000000000000000000000000000000000000000000000000001" [72, 105] =
      .ok "23f14b4e8a81c2b6e4f865785df9d4ee96290bdb4e44e1814cee10dd3c5c668d081bd72cd89a4ad84a2ce9249c9f06c08fadfa713b64b54d336a22a70815de48" ∧
    ∃ pub, getPublicKey
        "ab79fd33b8541e6132ce2169b0f9b8eab44f3b69f48d57bfa48ed1437e90b4d0" = .ok pub ∧
      verify pub [72, 105]
        "23f14b4e8a81c2b6e4f865785df9d4ee96290bdb4e44e1814cee10dd3c5c668d081bd72cd89a4ad84a2ce9249c9f06c08fadfa713b64b54d336a22a70815de48" =
        .ok true :=
  ⟨by decide, by decide, by decide, sign_one_hi,
    recovery_verify (by decide) sign_one_hi (by decide)⟩

/-- Claim C3 (amended): a signature does not verify under the public key
of an unrelated valid private key, except for a set of at most four
private scalars — the signer's among them — determined by the message
and signature: for every valid second key whose scalar is outside that
set, verification returns ok false. -/
theorem claim_C3 (pk1 : String) (msg : List Nat) (sigHex : String)
    (hval1 : privateKeyVerify (hexDecode pk1) = true)
    (hsig : sign pk1 msg = .ok sigHex) :
    ∃ S : Finset Nat, S.card ≤ 4 ∧ bytesToNatBE (hexDecode pk1) ∈ S ∧
      ∀ pk2 : String, privateKeyVerify (hexDecode pk2) = true →
        bytesToNatBE (hexDecode pk2) ∉ S →
        ∀ pub, getPublicKey pk2 = .ok pub →
          verify pub msg sigHex = .ok false := by
  obtain ⟨sigBytes, hsc, hsighex⟩ := sign_ok_inv hsig
  subst hsighex
  obtain ⟨hval1x, rx, ry, hsck, hr0, hs0, hbs⟩ := ecdsaSign_ok_inv hsc
  obtain ⟨hl1, hd10, hd1n⟩ := (privateKeyVerify_iff _).mp hval1
  haveI := Fact.mk secpN_prime
  have hssZ : ((sigS (ecdsaNonce (hexDecode pk1) (sha256 msg))
      (bytesToNatBE (sha256 msg) % secpN) (sigR rx)
      (bytesToNatBE (hexDecode pk1)) : Nat) : ZMod secpN) ≠ 0 :=
    natCast_ne_zero_of (Nat.pos_of_ne_zero hs0) (sigS_lt _ _ _ _)
  have hrrZ : ((sigR rx : Nat) : ZMod secpN) ≠ 0 :=
    natCast_ne_zero_of (Nat.pos_of_ne_zero hr0) (sigR_lt rx)
  have hu2Z : ((sigR rx * invModN (sigS (ecdsaNonce (hexDecode pk1) (sha256 msg))
      (bytesToNatBE (sha256 msg) % secpN) (sigR rx)
      (bytesToNatBE (hexDecode pk1))) % secpN : Nat) : ZMod secpN) ≠ 0 := by
    rw [ZMod.natCast_mod, Nat.cast_mul, invModN_cast hssZ]
    exact mul_ne_zero hrrZ (inv_ne_zero hssZ)
  have hvTake : bytesToNatBE (sigBytes.take 32) = sigR rx := by
    rw [hbs, sig_take,
      bytesToNatBE_natToBytesBE 32 _ (lt_trans (sigR_lt rx) secpN_lt_pow256)]
  have hvDrop : bytesToNatBE (sigBytes.drop 32)
      = sigS (ecdsaNonce (hexDecode pk1) (sha256 msg))
        (bytesToNatBE (sha256 msg) % secpN) (sigR rx)
        (bytesToNatBE (hexDecode pk1)) := by
    rw [hbs, sig_drop,
      bytesToNatBE_natToBytesBE 32 _ (lt_trans (sigS_lt _ _ _ _) secpN_lt_pow256)]
  refine ⟨(Finset.range secpN).filter (fun d =>
      uAcceptKey (bytesToNatBE (sha256 msg) % secpN *
          invModN (sigS (ecdsaNonce (hexDecode pk1) (sha256 msg))
            (bytesToNatBE (sha256 msg) % secpN) (sigR rx)
            (bytesToNatBE (hexDecode pk1))) % secpN)
        (sigR rx * invModN (sigS (ecdsaNonce (hexDecode pk1) (sha256 msg))
            (bytesToNatBE (sha256 msg) % secpN) (sigR rx)
            (bytesToNatBE (hexDecode pk1))) % secpN)
        (sigR rx) d = true), ?_, ?_, ?_⟩
  · exact uAcceptKey_card hu2Z
      (lt_trans (Nat.mod_lt _ (by norm_num [secpN])) secpN_lt_pow300)
      (lt_trans (Nat.mod_lt _ (by norm_num [secpN])) secpN_lt_pow300)
  · obtain ⟨qx1, qy1, hscd1⟩ := scmul_G_isSome hd10 hd1n
    refine Finset.mem_filter.mpr ⟨Finset.mem_range.mpr hd1n, ?_⟩
    rw [uAcceptKey_eq_some hscd1]
    show ecdsaCheck (bytesToNatBE (sha256 msg) % secpN) (sigR rx)
      (sigS (ecdsaNonce (hexDecode pk1) (sha256 msg))
        (bytesToNatBE (sha256 msg) % secpN) (sigR rx)
        (bytesToNatBE (hexDecode pk1))) (qx1, qy1) = true
    exact ecdsaCheck_roundtrip hd1n (ecdsaNonce_pos _ _) (ecdsaNonce_lt _ _)
      hsck hscd1 hs0
  · intro pk2 hval2 hnotin pub hpub
    obtain ⟨pubBytes, hpc, hpubhex⟩ := getPublicKey_ok_inv hpub
    subst hpubhex
    obtain ⟨hval2x, qx2, qy2, hscd2, hout2⟩ := publicKeyCreate_ok_inv hpc
    obtain ⟨hl2, hd20, hd2n⟩ := (privateKeyVerify_iff _).mp hval2
    have hq := scmul_some_facts (lt_trans hd2n secpN_lt_pow300) hscd2
    have hacc : uAcceptKey (bytesToNatBE (sha256 msg) % secpN *
        invModN (sigS (ecdsaNonce (hexDecode pk1) (sha256 msg))
          (bytesToNatBE (sha256 msg) % secpN) (sigR rx)
          (bytesToNatBE (hexDecode pk1))) % secpN)
        (sigR rx * invModN (sigS (ecdsaNonce (hexDecode pk1) (sha256 msg))
          (bytesToNatBE (sha256 msg) % secpN) (sigR rx)
          (bytesToNatBE (hexDecode pk1))) % secpN)
        (sigR rx) (bytesToNatBE (hexDecode pk2)) = false := by
      by_contra hcon
      refine hnotin (Finset.mem_filter.mpr ⟨Finset.mem_range.mpr hd2n, ?_⟩)
      revert hcon
      cases uAcceptKey (bytesToNatBE (sha256 msg) % secpN *
          invModN (sigS (ecdsaNonce (hexDecode pk1) (sha256 msg))
            (bytesToNatBE (sha256 msg) % secpN) (sigR rx)
            (bytesToNatBE (hexDecode pk1))) % secpN)
        (sigR rx * invModN (sigS (ecdsaNonce (hexDecode pk1) (sha256 msg))
            (bytesToNatBE (sha256 msg) % secpN) (sigR rx)
            (bytesToNatBE (hexDecode pk1))) % secpN)
        (sigR rx) (bytesToNatBE (hexDecode pk2)) <;> simp
    rw [uAcceptKey_eq_some hscd2] at hacc
    have hacc2 : uAccept
        (bytesToNatBE (sha256 msg) % secpN *
          invModN (bytesToNatBE (sigBytes.drop 32)) % secpN)
        (bytesToNatBE (sigBytes.take 32) *
          invModN (bytesToNatBE (sigBytes.drop 32)) % secpN)
        (bytesToNatBE (sigBytes.take 32)) (qx2, qy2) = false := by
      rw [hvTake, hvDrop]
      exact hacc
    show ecdsaVerify (hexDecode (hexEncode (sha256 msg)))
      (hexDecode (hexEncode sigBytes)) (hexDecode (hexEncode pubBytes)) = .ok false
    rw [hexDance_sha256, hexDecode_hexEncode (ecdsaSign_ok_isBytes hsc),
      hexDecode_hexEncode (publicKeyCreate_ok_isBytes hpc)]
    exact ecdsaVerify_of_uAccept (ecdsaSign_ok_length hsc)
      (by rw [hvTake]; exact Nat.pos_of_ne_zero hr0)
      (by rw [hvTake]; exact sigR_lt rx)
      (by rw [hvDrop]; exact Nat.pos_of_ne_zero hs0)
      (by rw [hvDrop]; exact sigS_lt _ _ _ _)
      hq.1 hq.2.1 hq.2.2 hout2 hacc2

/-- Claim C3 (amended) witness: the bound instantiated at the private
key one and the message "Hi". -/
theorem claim_C3_witness :
    privateKeyVerify
      (hexDecode "0000000000000000000000000000000000000000000000000000000000000001") = true ∧
    sign "0000000000000000000000000000000000000000000000000000000000000001" [72, 105] =
      .ok "23f14b4e8a81c2b6e4f865785df9d4ee96290bdb4e44e1814cee10dd3c5c668d081bd72cd89a4ad84a2ce9249c9f06c08fadfa713b64b54d336a22a70815de48" ∧
    ∃ S : Finset Nat, S.card ≤ 4 ∧
      bytesToNatBE (hexDecode
        "0000000000000000000000000000000000000000000000000000000000000001") ∈ S ∧
      ∀ pk2 : String, privateKeyVerify (hexDecode pk2) = true →
        bytesToNatBE (hexDecode pk2) ∉ S →
        ∀ pub, getPublicKey pk2 = .ok pub →
          verify pub [72, 105]
            "23f14b4e8a81c2b6e4f865785df9d4ee96290bdb4e44e1814cee10dd3c5c668d081bd72cd89a4ad84a2ce9249c9f06c08fadfa713b64b54d336a22a70815de48" =
            .ok false :=
  ⟨by decide, sign_one_hi,
    claim_C3 "0000000000000000000000000000000000000000000000000000000000000001" [72, 105]
      _ (by decide) sign_one_hi⟩

end Cryptomoji
